import Mathlib

/-!
Verification of the working-copy metadata store of `osc/wc/util.py`.

The filesystem is embedded shallowly: a finite association list from paths
(lists of name components) to nodes (regular files with string content,
directories with a writable flag, or symbolic links).  Path resolution
follows symbolic links component by component with a fuel bound, matching
the kernel's loop detection.  Fallible OS calls return `Except` with the
POSIX errno as a natural number; `os.makedirs` failures are injected
through an oracle carried in the filesystem state, modelling external OS
errors such as EACCES.
-/

set_option maxRecDepth 2000

deriving instance DecidableEq for Except

namespace OscWc

abbrev Path := List String

/-- A filesystem node: a regular file with its content, a directory with a
writable bit, or a symbolic link holding its target path. -/
inductive Node where
  | file (content : String)
  | dir (writable : Bool)
  | symlink (target : Path)
deriving DecidableEq

/-- First-match lookup in an association list keyed by paths. -/
def alookup {α : Type} : List (Path × α) → Path → Option α
  | [], _ => none
  | (k, v) :: rest, p => if k = p then some v else alookup rest p

/-- Remove every binding of a key from an association list. -/
def aerase {α : Type} : List (Path × α) → Path → List (Path × α)
  | [], _ => []
  | (k, v) :: rest, p => if k = p then aerase rest p else (k, v) :: aerase rest p

/-- The filesystem state: the node map plus a fault-injection oracle giving
the errno with which `os.makedirs` fails at a given path, if any. -/
structure FS where
  nodes : List (Path × Node)
  mkdirErrors : List (Path × Nat)
deriving DecidableEq

/-- Extract the target of a symbolic-link node, if the node is one. -/
def symTarget : Option Node → Option Path
  | some (Node.symlink t) => some t
  | _ => none

/-- Maximum number of symbolic links followed during resolution (the
kernel's ELOOP bound). -/
def _FUEL : Nat := 64

/-- Walk the components `rest` from the already-physical path `acc` until
the first symbolic link: either the fully walked physical path, or the
link's target together with the components still to walk. -/
def FS.walk (fs : FS) : Path → Path → Path ⊕ (Path × Path)
  | acc, [] => Sum.inl acc
  | acc, c :: rest =>
    match symTarget (alookup fs.nodes (acc ++ [c])) with
    | some t => Sum.inr (t, rest)
    | none => fs.walk (acc ++ [c]) rest

/-- Resolve the components `rest` starting from the already-physical path
`acc`, following symbolic links; each link traversal consumes one unit of
fuel, and running out of fuel (a link loop) yields `none`. -/
def FS.resolveFrom (fs : FS) : Nat → Path → Path → Option Path
  | 0, acc, rest =>
    match fs.walk acc rest with
    | Sum.inl P => some P
    | Sum.inr _ => none
  | f + 1, acc, rest =>
    match fs.walk acc rest with
    | Sum.inl P => some P
    | Sum.inr (t, rest') => fs.resolveFrom f [] (t ++ rest')

/-- Fully resolve a path, following every symbolic link. -/
def FS.npath (fs : FS) (p : Path) : Option Path :=
  fs.resolveFrom _FUEL [] p

/-- The node a path denotes after following symbolic links. -/
def FS.lookup (fs : FS) (p : Path) : Option Node :=
  (fs.npath p).bind (alookup fs.nodes)

/-- `os.path.isdir`: the path resolves to a directory. -/
def FS.isdir (fs : FS) (p : Path) : Bool :=
  match fs.lookup p with
  | some (Node.dir _) => true
  | _ => false

/-- `os.path.isfile`: the path resolves to a regular file. -/
def FS.isfile (fs : FS) (p : Path) : Bool :=
  match fs.lookup p with
  | some (Node.file _) => true
  | _ => false

/-- `os.path.exists`: the path resolves to some node (a broken symbolic
link does not exist). -/
def FS.path_exists (fs : FS) (p : Path) : Bool :=
  (fs.lookup p).isSome

/-- `os.access(p, os.W_OK)`: write permission on the resolved node. -/
def FS.accessW (fs : FS) (p : Path) : Bool :=
  match fs.lookup p with
  | some (Node.dir w) => w
  | some (Node.file _) => true
  | _ => false

/-- Bind a physical path to a node, replacing any previous binding. -/
def FS.setRaw (fs : FS) (p : Path) (n : Node) : FS :=
  { fs with nodes := (p, n) :: aerase fs.nodes p }

/-- Remove the binding of a physical path. -/
def FS.delRaw (fs : FS) (p : Path) : FS :=
  { fs with nodes := aerase fs.nodes p }

/-- Resolve all but the last component of a path (the parent is followed
through symbolic links, the final component is not), returning the
physical parent and the final component. -/
def FS.splitResolve (fs : FS) (p : Path) : Option (Path × String) :=
  match p.getLast? with
  | none => none
  | some c => (fs.resolveFrom _FUEL [] p.dropLast).map (fun P => (P, c))

/-- `os.mkdir`: create a single directory; the parent must resolve to an
existing directory and the position must be empty. -/
def FS.mkdir (fs : FS) (p : Path) : Except Nat FS :=
  match fs.splitResolve p with
  | none => Except.error 2
  | some (P, c) =>
    match alookup fs.nodes P with
    | some (Node.dir _) =>
      if (alookup fs.nodes (P ++ [c])).isSome then Except.error 17
      else Except.ok (fs.setRaw (P ++ [c]) (Node.dir true))
    | _ => Except.error 2

/-- `os.symlink(target, p)`: create a symbolic-link node at `p`; the target
is not inspected. -/
def FS.mklink (fs : FS) (target : Path) (p : Path) : Except Nat FS :=
  match fs.splitResolve p with
  | none => Except.error 2
  | some (P, c) =>
    match alookup fs.nodes P with
    | some (Node.dir _) =>
      if (alookup fs.nodes (P ++ [c])).isSome then Except.error 17
      else Except.ok (fs.setRaw (P ++ [c]) (Node.symlink target))
    | _ => Except.error 2

/-- `os.unlink`: remove a non-directory node. -/
def FS.unlink (fs : FS) (p : Path) : Except Nat FS :=
  match fs.splitResolve p with
  | none => Except.error 2
  | some (P, c) =>
    match alookup fs.nodes (P ++ [c]) with
    | some (Node.dir _) => Except.error 21
    | some _ => Except.ok (fs.delRaw (P ++ [c]))
    | none => Except.error 2

/-- `os.rename(src, dst)`: atomically move the node at `src` over `dst`;
renaming a file over an existing directory fails with EISDIR. -/
def FS.rename (fs : FS) (src dst : Path) : Except Nat FS :=
  match fs.splitResolve src, fs.splitResolve dst with
  | some (SP, s), some (DP, d) =>
    match alookup fs.nodes (SP ++ [s]) with
    | none => Except.error 2
    | some n =>
      match alookup fs.nodes (DP ++ [d]) with
      | some (Node.dir _) => Except.error 21
      | _ => Except.ok ((fs.delRaw (SP ++ [s])).setRaw (DP ++ [d]) n)
  | _, _ => Except.error 2

/-- `open(p, 'w')`: create or truncate the regular file at the fully
resolved position; the parent must be a directory and the position must
not be a directory. -/
def FS.openW (fs : FS) (p : Path) : Except Nat FS :=
  match fs.resolveFrom _FUEL [] p with
  | none => Except.error 40
  | some q =>
    match q.getLast? with
    | none => Except.error 21
    | some _ =>
      match alookup fs.nodes q.dropLast with
      | some (Node.dir _) =>
        match alookup fs.nodes q with
        | some (Node.dir _) => Except.error 21
        | _ => Except.ok (fs.setRaw q (Node.file ""))
      | _ => Except.error 2

/-- `NamedTemporaryFile(dir=d, delete=False)`: create a fresh empty file
named `tmp` inside the resolved directory `d`; the OS guarantees the
chosen name is fresh, modelled by failing when it is not. -/
def FS.mktempIn (fs : FS) (d : Path) (tmp : String) : Except Nat (FS × Path) :=
  match fs.resolveFrom _FUEL [] d with
  | none => Except.error 2
  | some S =>
    match alookup fs.nodes S with
    | some (Node.dir _) =>
      if (alookup fs.nodes (S ++ [tmp])).isSome then Except.error 17
      else Except.ok (fs.setRaw (S ++ [tmp]) (Node.file ""), S ++ [tmp])
    | _ => Except.error 2

/-- Create the first `n` nonempty prefixes of `p` as writable directories,
skipping the ones already bound. -/
def mkdirUpto (fs : FS) (p : Path) : Nat → FS
  | 0 => fs
  | n + 1 =>
    let acc := mkdirUpto fs p n
    if (alookup acc.nodes (p.take (n + 1))).isSome then acc
    else acc.setRaw (p.take (n + 1)) (Node.dir true)

/-- Create every missing nonempty prefix of `p` as a writable directory
(the effect of a successful `os.makedirs`). -/
def FS.mkdirAll (fs : FS) (p : Path) : FS :=
  mkdirUpto fs p p.length

/-- `os.makedirs`: consult the fault-injection oracle; on no injected
fault, create the path and all missing ancestors. -/
def FS.makedirs (fs : FS) (p : Path) : Except Nat FS :=
  match alookup fs.mkdirErrors p with
  | some e => Except.error e
  | none => Except.ok (fs.mkdirAll p)

/-- Well-formedness: every bound nonempty path has a directory bound at its
parent (no orphan nodes). -/
def FS.wfB (fs : FS) : Bool :=
  fs.nodes.all (fun kv =>
    kv.1 = [] ||
      match alookup fs.nodes kv.1.dropLast with
      | some (Node.dir _) => true
      | _ => false)

/-- No nonempty prefix of `p` is bound to a symbolic link: `p` resolves to
itself. -/
def FS.physicalAlong (fs : FS) (p : Path) : Bool :=
  (List.range (p.length + 1)).all (fun n =>
    match symTarget (alookup fs.nodes (p.take n)) with
    | some _ => false
    | none => true)

/-- Every nonempty prefix of `p` is either unbound or a directory. -/
def FS.cleanPrefixes (fs : FS) (p : Path) : Bool :=
  (List.range p.length).all (fun n =>
    match alookup fs.nodes (p.take (n + 1)) with
    | none => true
    | some (Node.dir _) => true
    | _ => false)

/-- The raw node at `p` is neither a directory nor a symbolic link. -/
def plainAt (fs : FS) (p : Path) : Bool :=
  match alookup fs.nodes p with
  | some (Node.dir _) => false
  | some (Node.symlink _) => false
  | _ => true

/-- Python `str.isspace` characters stripped by `str.strip()`. -/
def isPySpace (c : Char) : Bool :=
  c == ' ' || c == '\t' || c == '\n' || c == '\r' || c == '\x0b' || c == '\x0c'

/-- Python `str.strip()`: drop leading and trailing whitespace. -/
def pyStrip (s : String) : String :=
  String.mk (((s.data.dropWhile isPySpace).reverse.dropWhile isPySpace).reverse)

/-- Render a path for error messages (`os.path.join` flattening). -/
def showPath (p : Path) : String := String.intercalate "/" p

/-- A raised Python exception, abstracted to its kind: `ValueError` and
`RuntimeError` with their message, `OSError` with its errno, or the
exception injected by the write-fault oracle. -/
inductive PyErr where
  | valueError (msg : String)
  | runtimeError (msg : String)
  | osError (errno : Nat)
  | injected
deriving DecidableEq

def _STORE : String := ".osc"
def _PKG_DATA : String := "data"
def _LOCK : String := "wc.lock"

/-- `_storedir(path)`: `os.path.join(path, _STORE)`. -/
def _storedir (path : Path) : Path := path ++ [_STORE]

/-- `_storefile(path, filename)`: `os.path.join(_storedir(path), filename)`. -/
def _storefile (path : Path) (filename : String) : Path :=
  _storedir path ++ [filename]

/-- `_has_storedir(path)`: `path` and its store are both directories. -/
def _has_storedir (fs : FS) (path : Path) : Bool :=
  fs.isdir path && fs.isdir (_storedir path)

/-- The loop body of `missing_storepaths`: collect the names whose store
path is not a directory (when `dirs`) or not a regular file. -/
def missingLoop (fs : FS) (storedir : Path) (dirs : Bool) : List String → List String
  | [] => []
  | p :: ps =>
    let storepath := storedir ++ [p]
    let rest := missingLoop fs storedir dirs ps
    if dirs then
      if fs.isdir storepath then rest else p :: rest
    else
      if fs.isfile storepath then rest else p :: rest

/-- `missing_storepaths(path, *paths, dirs=dirs, data=data)`. -/
def missing_storepaths (fs : FS) (path : Path) (paths : List String)
    (dirs : Bool) (data : Bool) : List String :=
  if _has_storedir fs path then
    let storedir := if data then _storefile path _PKG_DATA else _storedir path
    missingLoop fs storedir dirs paths
  else
    paths

/-- The `ValueError` message of `_read_storefile`. -/
def readErrMsg (filename : String) : String :=
  "'" ++ filename ++ "' is no valid storefile"

/-- `_read_storefile(path, filename)`: `ValueError` when the entry is
missing or not a regular file, else the stripped file content. -/
def _read_storefile (fs : FS) (path : Path) (filename : String) :
    Except String String :=
  if missing_storepaths fs path [filename] false false ≠ [] then
    Except.error (readErrMsg filename)
  else
    match fs.lookup (_storefile path filename) with
    | some (Node.file c) => Except.ok (pyStrip c)
    | _ => Except.error (readErrMsg filename)

/-- A fault injected into `_write_storefile`, naming the statement of the
`try` block that raises: `NamedTemporaryFile` itself, `tmpfile.write(data)`
after `written` characters reached the file, or the trailing-newline
write. -/
inductive WriteFault where
  | mktemp
  | writeData (written : Nat)
  | writeNewline
deriving DecidableEq

/-- Outcome of a call that may raise and mutates the filesystem: the
raised exception, if any, and the filesystem after the call. -/
structure WriteResult where
  err : Option PyErr
  fs : FS
deriving DecidableEq

/-- `_write_storefile(path, filename, data)` under fault injection.
Mirrors the source control flow: the `ValueError` guard, the `try` block
creating a named temporary file in the store directory and writing `data`
plus a trailing newline when `data` is nonempty, and the `finally` block
which — whenever the temporary file object exists, even if a write
raised — closes it and renames it over the target. -/
def _write_storefile (fs : FS) (path : Path) (filename : String)
    (data : String) (tmp : String) (fault : Option WriteFault) : WriteResult :=
  if _has_storedir fs path then
    let fname := _storefile path filename
    match fault with
    | some WriteFault.mktemp =>
      -- NamedTemporaryFile raised: tmpfile is still None, so the
      -- finally block does nothing and the exception propagates.
      ⟨some PyErr.injected, fs⟩
    | _ =>
      match fs.mktempIn (_storedir path) tmp with
      | Except.error e => ⟨some (PyErr.osError e), fs⟩
      | Except.ok (fs₁, tmppath) =>
        let written : String :=
          match fault with
          | some (WriteFault.writeData k) => data.take k
          | some WriteFault.writeNewline => data
          | _ => if data = "" then "" else data ++ "\n"
        let fs₂ := fs₁.setRaw tmppath (Node.file written)
        match fs₂.rename tmppath fname with
        | Except.error e => ⟨some (PyErr.osError e), fs₂⟩
        | Except.ok fs₃ =>
          match fault with
          | none => ⟨none, fs₃⟩
          | some _ => ⟨some PyErr.injected, fs₃⟩
  else
    ⟨some (PyErr.valueError ("path \"" ++ showPath path ++ "\" has no storedir")), fs⟩

/-- `wc_is_project(path)`. -/
def wc_is_project (fs : FS) (path : Path) : Bool :=
  let missing := missing_storepaths fs path ["_apiurl", "_project", "_package"] false false
  if missing = [] then false
  else if missing.length = 1 ∧ "_package" ∈ missing then true
  else false

/-- `wc_is_package(path)`. -/
def wc_is_package (fs : FS) (path : Path) : Bool :=
  missing_storepaths fs path ["_apiurl", "_project", "_package"] false false = []

/-- Outcome of `wc_init`: the raised exception, if any, and the
filesystem after the call. -/
structure InitResult where
  err : Option PyErr
  fs : FS
deriving DecidableEq

def EACCES : Nat := 13

/-- `wc_init(path, ext_storedir)`, mirroring the source order: the
external-store check, the already-a-working-copy check, the
exists-but-no-dir check, recursive creation of a missing `path` with
EACCES translated to `ValueError` and other `OSError`s re-raised, the
writability check, then creation of the store (symbolic link or fresh
directory) and of its data subdirectory. -/
def wc_init (fs : FS) (path : Path) (ext_storedir : Option Path) : InitResult :=
  let extBad : Bool :=
    match ext_storedir with
    | some E => !(fs.isdir E && fs.accessW E)
    | none => false
  if extBad then
    ⟨some (PyErr.valueError ("ext_storedir \"" ++
      showPath (ext_storedir.getD []) ++ "\" is no dir or not writable")), fs⟩
  else
    let storedir := _storedir path
    if fs.path_exists storedir then
      ⟨some (PyErr.valueError ("path \"" ++ showPath path ++
        "\" is already a working copy")), fs⟩
    else if fs.path_exists path && !fs.isdir path then
      ⟨some (PyErr.valueError ("path \"" ++ showPath path ++
        "\" already exists but is no dir")), fs⟩
    else
      let step : InitResult :=
        if fs.path_exists path then ⟨none, fs⟩
        else
          match fs.makedirs path with
          | Except.error e =>
            if e ≠ EACCES then ⟨some (PyErr.osError e), fs⟩
            else ⟨some (PyErr.valueError ("no permission to create path \"" ++
              showPath path ++ "\"")), fs⟩
          | Except.ok fs₁ => ⟨none, fs₁⟩
      match step.err with
      | some e => ⟨some e, step.fs⟩
      | none =>
        let fs₁ := step.fs
        if !fs₁.accessW path then
          ⟨some (PyErr.valueError ("no permission to create a storedir (path: \"" ++
            showPath path ++ "\")")), fs₁⟩
        else
          match (match ext_storedir with
                 | some E => fs₁.mklink E storedir
                 | none => fs₁.mkdir storedir) with
          | Except.error e => ⟨some (PyErr.osError e), fs₁⟩
          | Except.ok fs₂ =>
            match fs₂.mkdir (_storefile path _PKG_DATA) with
            | Except.error e => ⟨some (PyErr.osError e), fs₂⟩
            | Except.ok fs₃ => ⟨none, fs₃⟩

/-- `WCLock`: the working-copy path and the open lock file object (`None`
until `lock()` succeeds). -/
structure WCLock where
  _path : Path
  _fobj : Option Unit
deriving DecidableEq

/-- `WCLock.has_lock()`. -/
def WCLock.has_lock (l : WCLock) : Bool := l._fobj.isSome

/-- Outcome of a `WCLock` method: the raised exception, if any, the
handle afterwards, and the filesystem afterwards. -/
structure LockResult where
  err : Option PyErr
  lk : WCLock
  fs : FS
deriving DecidableEq

/-- `WCLock.lock()`: `RuntimeError` on a double lock, else open the lock
file for writing and take the (blocking, exclusive) advisory lock — in
this single-handle model the `fcntl.lockf` call acquires. -/
def WCLock.lock (l : WCLock) (fs : FS) : LockResult :=
  if l.has_lock then
    ⟨some (PyErr.runtimeError "Double lock occured"), l, fs⟩
  else
    match fs.openW (_storefile l._path _LOCK) with
    | Except.error e => ⟨some (PyErr.osError e), l, fs⟩
    | Except.ok fs₁ => ⟨none, { l with _fobj := some () }, fs₁⟩

/-- `WCLock.unlock()`: `RuntimeError` when no lock is held, else release,
close and drop the file object, then unlink the lock file. -/
def WCLock.unlock (l : WCLock) (fs : FS) : LockResult :=
  if !l.has_lock then
    ⟨some (PyErr.runtimeError "Attempting to release an unaquired lock."), l, fs⟩
  else
    let l₁ : WCLock := { l with _fobj := none }
    match fs.unlink (_storefile l._path _LOCK) with
    | Except.error e => ⟨some (PyErr.osError e), l₁, fs⟩
    | Except.ok fs₁ => ⟨none, l₁, fs₁⟩

/-! ### Association-list and filesystem-update lemmas -/

theorem alookup_aerase {α : Type} (l : List (Path × α)) (p q : Path) :
    alookup (aerase l p) q = if q = p then none else alookup l q := by
  induction l with
  | nil => simp [aerase, alookup]
  | cons kv rest ih =>
    obtain ⟨k, v⟩ := kv
    simp only [aerase]
    by_cases hk : k = p
    · rw [if_pos hk, ih]
      by_cases hq : q = p
      · simp [hq]
      · have hkq : ¬k = q := fun h => hq (hk ▸ h.symm ▸ rfl)
        simp [alookup, hq, hkq]
    · rw [if_neg hk]
      by_cases hq : k = q
      · have hqp : ¬q = p := fun h => hk (hq.symm ▸ h ▸ rfl)
        simp [alookup, hq, hqp]
      · simp [alookup, hq, ih]

theorem alookup_setRaw (fs : FS) (p : Path) (n : Node) (q : Path) :
    alookup (fs.setRaw p n).nodes q = if q = p then some n else alookup fs.nodes q := by
  by_cases hq : q = p <;>
    simp [FS.setRaw, alookup, alookup_aerase, hq]
  exact fun h => absurd h.symm hq

theorem alookup_delRaw (fs : FS) (p : Path) (q : Path) :
    alookup (fs.delRaw p).nodes q = if q = p then none else alookup fs.nodes q := by
  simp [FS.delRaw, alookup_aerase]

theorem alookup_mem {α : Type} {l : List (Path × α)} {k : Path} {v : α}
    (h : alookup l k = some v) : (k, v) ∈ l := by
  induction l with
  | nil => simp [alookup] at h
  | cons kv rest ih =>
    obtain ⟨k', v'⟩ := kv
    by_cases hk : k' = k
    · simp [alookup, hk] at h
      simp [hk, h]
    · simp [alookup, hk] at h
      simp [ih h]

/-! ### Resolution lemmas -/

/-- Two filesystems with the same symbolic-link structure. -/
def symEq (fs₁ fs₂ : FS) : Prop :=
  ∀ p, symTarget (alookup fs₁.nodes p) = symTarget (alookup fs₂.nodes p)

theorem walk_congr {fs₁ fs₂ : FS} (h : symEq fs₁ fs₂) :
    ∀ rest acc, fs₁.walk acc rest = fs₂.walk acc rest := by
  intro rest
  induction rest with
  | nil => intro acc; simp [FS.walk]
  | cons c rest ih =>
    intro acc
    simp only [FS.walk, h (acc ++ [c])]
    cases symTarget (alookup fs₂.nodes (acc ++ [c])) with
    | some t => simp
    | none => simpa using ih (acc ++ [c])

theorem resolveFrom_congr {fs₁ fs₂ : FS} (h : symEq fs₁ fs₂) :
    ∀ fuel acc rest, fs₁.resolveFrom fuel acc rest = fs₂.resolveFrom fuel acc rest := by
  intro fuel
  induction fuel with
  | zero =>
    intro acc rest
    simp only [FS.resolveFrom, walk_congr h]
  | succ f ih =>
    intro acc rest
    simp only [FS.resolveFrom, walk_congr h]
    cases fs₂.walk acc rest with
    | inl P => simp
    | inr tr => obtain ⟨t, r⟩ := tr; simpa using ih [] (t ++ r)

theorem walk_append (fs : FS) :
    ∀ xs acc ys, fs.walk acc (xs ++ ys) =
      match fs.walk acc xs with
      | Sum.inl P => fs.walk P ys
      | Sum.inr (t, r) => Sum.inr (t, r ++ ys) := by
  intro xs
  induction xs with
  | nil => intro acc ys; simp [FS.walk]
  | cons c xs ih =>
    intro acc ys
    simp only [List.cons_append, FS.walk]
    cases symTarget (alookup fs.nodes (acc ++ [c])) with
    | some t => simp
    | none => simpa using ih (acc ++ [c]) ys

theorem prefix_snoc_cases {q xs : Path} {c : String} (h : q <+: xs ++ [c]) :
    q <+: xs ∨ q = xs ++ [c] := by
  obtain ⟨r, hr⟩ := h
  rcases List.eq_nil_or_concat r with rfl | ⟨r', d, rfl⟩
  · right; simpa using hr
  · left
    have h₂ : (q ++ r') ++ [d] = xs ++ [c] := by
      simpa [List.append_assoc] using hr
    exact ⟨r', (List.append_inj' h₂ rfl).1⟩

theorem walk_physical (fs : FS) :
    ∀ ys acc, (∀ q, q ≠ [] → q <+: ys → symTarget (alookup fs.nodes (acc ++ q)) = none) →
      fs.walk acc ys = Sum.inl (acc ++ ys) := by
  intro ys
  induction ys with
  | nil => intro acc _; simp [FS.walk]
  | cons c ys ih =>
    intro acc h
    have hc : symTarget (alookup fs.nodes (acc ++ [c])) = none :=
      h [c] (by simp) (by simp)
    simp only [FS.walk, hc]
    have := ih (acc ++ [c]) (fun q hq hpre => by
      simpa [List.append_assoc] using
        h (c :: q) (by simp) ((List.cons_prefix_cons).mpr ⟨rfl, hpre⟩))
    simpa using this

theorem resolveFrom_physical_self (fs : FS) (fuel : Nat) (acc ys : Path)
    (h : ∀ q, q ≠ [] → q <+: ys → symTarget (alookup fs.nodes (acc ++ q)) = none) :
    fs.resolveFrom fuel acc ys = some (acc ++ ys) := by
  cases fuel <;> simp only [FS.resolveFrom, walk_physical fs ys acc h]

theorem resolveFrom_extend (fs : FS) :
    ∀ fuel acc xs ys P, fs.resolveFrom fuel acc xs = some P →
      (∀ q, q ≠ [] → q <+: ys → symTarget (alookup fs.nodes (P ++ q)) = none) →
      fs.resolveFrom fuel acc (xs ++ ys) = some (P ++ ys) := by
  intro fuel
  induction fuel with
  | zero =>
    intro acc xs ys P hres hphys
    simp only [FS.resolveFrom] at hres ⊢
    rw [walk_append]
    cases hw : fs.walk acc xs with
    | inl Q =>
      rw [hw] at hres
      simp only [Option.some.injEq] at hres
      subst hres
      simp only [walk_physical fs ys _ hphys]
    | inr tr => rw [hw] at hres; simp at hres
  | succ f ih =>
    intro acc xs ys P hres hphys
    simp only [FS.resolveFrom] at hres ⊢
    rw [walk_append]
    cases hw : fs.walk acc xs with
    | inl Q =>
      rw [hw] at hres
      simp only [Option.some.injEq] at hres
      subst hres
      simp only [walk_physical fs ys _ hphys]
    | inr tr =>
      rw [hw] at hres
      obtain ⟨t, r⟩ := tr
      simp only at hres ⊢
      have := ih [] (t ++ r) ys P hres hphys
      simpa [List.append_assoc] using this

theorem walk_inl_physical (fs : FS) :
    ∀ ys acc P, fs.walk acc ys = Sum.inl P →
      (∀ q, q ≠ [] → q <+: acc → symTarget (alookup fs.nodes q) = none) →
      (∀ q, q ≠ [] → q <+: P → symTarget (alookup fs.nodes q) = none) := by
  intro ys
  induction ys with
  | nil =>
    intro acc P hw hacc
    simp [FS.walk] at hw
    subst hw; exact hacc
  | cons c ys ih =>
    intro acc P hw hacc
    simp only [FS.walk] at hw
    cases hc : symTarget (alookup fs.nodes (acc ++ [c])) with
    | some t => rw [hc] at hw; simp at hw
    | none =>
      rw [hc] at hw
      simp only at hw
      refine ih (acc ++ [c]) P hw (fun q hq hpre => ?_)
      rcases prefix_snoc_cases hpre with h | h
      · exact hacc q hq h
      · rw [h]; exact hc

theorem resolveFrom_result_physical (fs : FS) :
    ∀ fuel acc rest P, fs.resolveFrom fuel acc rest = some P →
      (∀ q, q ≠ [] → q <+: acc → symTarget (alookup fs.nodes q) = none) →
      (∀ q, q ≠ [] → q <+: P → symTarget (alookup fs.nodes q) = none) := by
  intro fuel
  induction fuel with
  | zero =>
    intro acc rest P hres hacc
    simp only [FS.resolveFrom] at hres
    cases hw : fs.walk acc rest with
    | inl Q =>
      rw [hw] at hres; simp at hres; subst hres
      exact walk_inl_physical fs rest acc Q hw hacc
    | inr tr => rw [hw] at hres; simp at hres
  | succ f ih =>
    intro acc rest P hres hacc
    simp only [FS.resolveFrom] at hres
    cases hw : fs.walk acc rest with
    | inl Q =>
      rw [hw] at hres; simp at hres; subst hres
      exact walk_inl_physical fs rest acc Q hw hacc
    | inr tr =>
      rw [hw] at hres
      obtain ⟨t, r⟩ := tr
      simp only at hres
      exact ih [] (t ++ r) P hres
        (fun q hq hpre => absurd (List.prefix_nil.mp hpre) hq)

/-! ### Specification lemmas for the Boolean side conditions -/

theorem physicalAlong_spec {fs : FS} {p : Path} (h : fs.physicalAlong p = true) :
    ∀ q, q ≠ [] → q <+: p → symTarget (alookup fs.nodes q) = none := by
  intro q _ hpre
  have hq : q = p.take q.length := List.prefix_iff_eq_take.mp hpre
  have hlen : q.length ≤ p.length := hpre.length_le
  simp only [FS.physicalAlong, List.all_eq_true] at h
  have := h q.length (by simp [List.mem_range]; omega)
  rw [← hq] at this
  cases hsym : symTarget (alookup fs.nodes q) with
  | none => rfl
  | some t => rw [hsym] at this; simp at this

theorem cleanPrefixes_spec {fs : FS} {p : Path} (h : fs.cleanPrefixes p = true) :
    ∀ q, q ≠ [] → q <+: p →
      alookup fs.nodes q = none ∨ ∃ w, alookup fs.nodes q = some (Node.dir w) := by
  intro q hq hpre
  have hqt : q = p.take q.length := List.prefix_iff_eq_take.mp hpre
  have hlen : q.length ≤ p.length := hpre.length_le
  have hpos : 0 < q.length := List.length_pos.mpr hq
  simp only [FS.cleanPrefixes, List.all_eq_true] at h
  have := h (q.length - 1) (by simp [List.mem_range]; omega)
  have heq : q.length - 1 + 1 = q.length := by omega
  rw [heq, ← hqt] at this
  cases hn : alookup fs.nodes q with
  | none => left; rfl
  | some n =>
    cases n with
    | file c => rw [hn] at this; simp at this
    | dir w => right; exact ⟨w, rfl⟩
    | symlink t => rw [hn] at this; simp at this

theorem cleanPrefixes_physicalAlong {fs : FS} {p : Path}
    (h : fs.cleanPrefixes p = true) :
    ∀ q, q ≠ [] → q <+: p → symTarget (alookup fs.nodes q) = none := by
  intro q hq hpre
  rcases cleanPrefixes_spec h q hq hpre with h' | ⟨w, h'⟩ <;> simp [h', symTarget]

theorem wfB_spec {fs : FS} (h : fs.wfB = true) {p : Path} {c : String} {n : Node}
    (hc : alookup fs.nodes (p ++ [c]) = some n) :
    ∃ w, alookup fs.nodes p = some (Node.dir w) := by
  have hmem := alookup_mem hc
  simp only [FS.wfB, List.all_eq_true] at h
  have := h (p ++ [c], n) hmem
  simp only [List.dropLast_concat] at this
  cases hn : alookup fs.nodes p with
  | none => rw [hn] at this; simp at this
  | some m =>
    cases m with
    | file c' => rw [hn] at this; simp at this
    | dir w => exact ⟨w, rfl⟩
    | symlink t => rw [hn] at this; simp at this

/-- Children of an unbound position are unbound in a well-formed
filesystem. -/
theorem wfB_no_orphan {fs : FS} (h : fs.wfB = true) {p : Path} {c : String}
    (hp : alookup fs.nodes p = none) : alookup fs.nodes (p ++ [c]) = none := by
  cases hc : alookup fs.nodes (p ++ [c]) with
  | none => rfl
  | some n =>
    obtain ⟨w, hw⟩ := wfB_spec h hc
    rw [hp] at hw
    simp at hw

/-! ### Bridging lemmas -/

theorem symEq_refl (fs : FS) : symEq fs fs := fun _ => rfl

theorem symEq_trans {fs₁ fs₂ fs₃ : FS} (h₁ : symEq fs₁ fs₂) (h₂ : symEq fs₂ fs₃) :
    symEq fs₁ fs₃ := fun p => (h₁ p).trans (h₂ p)

theorem symEq_setRaw {fs : FS} {p : Path} {n : Node}
    (hold : symTarget (alookup fs.nodes p) = none)
    (hnew : symTarget (some n) = none) :
    symEq fs (fs.setRaw p n) := by
  intro q
  rw [alookup_setRaw]
  by_cases h : q = p
  · rw [if_pos h, h, hold, hnew]
  · rw [if_neg h]

theorem symEq_delRaw {fs : FS} {p : Path}
    (hold : symTarget (alookup fs.nodes p) = none) :
    symEq fs (fs.delRaw p) := by
  intro q
  rw [alookup_delRaw]
  by_cases h : q = p
  · rw [if_pos h, h, hold]; rfl
  · rw [if_neg h]

theorem npath_physical {fs : FS} {p : Path}
    (h : ∀ q, q ≠ [] → q <+: p → symTarget (alookup fs.nodes q) = none) :
    fs.npath p = some p := by
  have := resolveFrom_physical_self fs _FUEL [] p
    (fun q hq hpre => by simpa using h q hq hpre)
  simpa [FS.npath] using this

theorem lookup_physical {fs : FS} {p : Path}
    (h : ∀ q, q ≠ [] → q <+: p → symTarget (alookup fs.nodes q) = none) :
    fs.lookup p = alookup fs.nodes p := by
  rw [FS.lookup, npath_physical h]
  rfl

theorem npath_result_physical {fs : FS} {p P : Path} (h : fs.npath p = some P) :
    ∀ q, q ≠ [] → q <+: P → symTarget (alookup fs.nodes q) = none := by
  refine resolveFrom_result_physical fs _FUEL [] p P h ?_
  intro q hq hpre
  exact absurd (List.prefix_nil.mp hpre) hq

theorem npath_snoc {fs : FS} {p P : Path} {c : String} (h : fs.npath p = some P)
    (hc : symTarget (alookup fs.nodes (P ++ [c])) = none) :
    fs.npath (p ++ [c]) = some (P ++ [c]) := by
  refine resolveFrom_extend fs _FUEL [] p [c] P h ?_
  intro q hq hpre
  have hpre' : q <+: ([] : Path) ++ [c] := by simpa using hpre
  have : q = [c] := by
    rcases prefix_snoc_cases hpre' with h' | h'
    · exact absurd (List.prefix_nil.mp h') hq
    · simpa using h'
  rw [this]
  exact hc

/-! ### Lemmas about `mkdirUpto` -/

theorem mkdirUpto_mkdirErrors (fs : FS) (p : Path) :
    ∀ n, (mkdirUpto fs p n).mkdirErrors = fs.mkdirErrors := by
  intro n
  induction n with
  | zero => rfl
  | succ n ih =>
    simp only [mkdirUpto]
    split <;> simp [FS.setRaw, ih]

theorem mkdirUpto_untouched (fs : FS) (p : Path) :
    ∀ n q, (∀ k, k < n → q ≠ p.take (k + 1)) →
      alookup (mkdirUpto fs p n).nodes q = alookup fs.nodes q := by
  intro n
  induction n with
  | zero => intro q _; rfl
  | succ n ih =>
    intro q hq
    have hqn : q ≠ p.take (n + 1) := hq n (by omega)
    have hrest : ∀ k, k < n → q ≠ p.take (k + 1) := fun k hk => hq k (by omega)
    simp only [mkdirUpto]
    split
    · exact ih q hrest
    · rw [alookup_setRaw, if_neg hqn]
      exact ih q hrest

theorem take_succ_ne_take_succ {p : Path} {k n : Nat} (hk : k < n)
    (hn : n + 1 ≤ p.length) : p.take (k + 1) ≠ p.take (n + 1) := by
  intro h
  have h₁ : (p.take (k + 1)).length = k + 1 := by
    rw [List.length_take]; omega
  have h₂ : (p.take (n + 1)).length = n + 1 := by
    rw [List.length_take]; omega
  rw [h, h₂] at h₁
  omega

theorem mkdirUpto_dir {fs : FS} {p : Path} (hclean : fs.cleanPrefixes p = true) :
    ∀ n, n ≤ p.length → ∀ k, k < n →
      ∃ w, alookup (mkdirUpto fs p n).nodes (p.take (k + 1)) = some (Node.dir w) := by
  intro n
  induction n with
  | zero => intro _ k hk; omega
  | succ n ih =>
    intro hn k hk
    simp only [mkdirUpto]
    by_cases hcase : (alookup (mkdirUpto fs p n).nodes (p.take (n + 1))).isSome = true
    · rw [if_pos hcase]
      rcases Nat.lt_or_ge k n with hkn | hkn
      · exact ih (by omega) k hkn
      · have hk_eq : k = n := by omega
        subst hk_eq
        have huntouched : alookup (mkdirUpto fs p k).nodes (p.take (k + 1)) =
            alookup fs.nodes (p.take (k + 1)) := by
          refine mkdirUpto_untouched fs p k (p.take (k + 1)) ?_
          intro j hj
          exact fun h => take_succ_ne_take_succ hj (by omega) h.symm
        rw [huntouched] at hcase ⊢
        have hpre : p.take (k + 1) <+: p := List.take_prefix _ _
        have hne : p.take (k + 1) ≠ [] := by
          have hlen : (p.take (k + 1)).length = k + 1 := by
            rw [List.length_take]; omega
          intro h
          rw [h] at hlen
          simp at hlen
        rcases cleanPrefixes_spec hclean _ hne hpre with h' | ⟨w, h'⟩
        · rw [h'] at hcase; simp at hcase
        · exact ⟨w, h'⟩
    · rw [if_neg hcase]
      rcases Nat.lt_or_ge k n with hkn | hkn
      · obtain ⟨w, hw⟩ := ih (by omega) k hkn
        refine ⟨w, ?_⟩
        rw [alookup_setRaw, if_neg (take_succ_ne_take_succ hkn hn), hw]
      · have hk_eq : k = n := by omega
        subst hk_eq
        exact ⟨true, by rw [alookup_setRaw, if_pos rfl]⟩

theorem mkdirUpto_symEq {fs : FS} {p : Path} :
    ∀ n, symEq fs (mkdirUpto fs p n) := by
  intro n
  induction n with
  | zero => exact symEq_refl fs
  | succ n ih =>
    simp only [mkdirUpto]
    by_cases hcase : (alookup (mkdirUpto fs p n).nodes (p.take (n + 1))).isSome = true
    · rw [if_pos hcase]; exact ih
    · rw [if_neg hcase]
      refine symEq_trans ih (symEq_setRaw ?_ rfl)
      cases h : alookup (mkdirUpto fs p n).nodes (p.take (n + 1)) with
      | none => rfl
      | some m => rw [h] at hcase; simp at hcase

theorem mkdirUpto_creates {fs : FS} {p : Path} :
    ∀ n, n ≤ p.length → ∀ k, k < n → alookup fs.nodes (p.take (k + 1)) = none →
      alookup (mkdirUpto fs p n).nodes (p.take (k + 1)) = some (Node.dir true) := by
  intro n
  induction n with
  | zero => intro _ k hk; omega
  | succ n ih =>
    intro hn k hk hnone
    simp only [mkdirUpto]
    rcases Nat.lt_or_ge k n with hkn | hkn
    · have hne := take_succ_ne_take_succ hkn hn
      by_cases hcase : (alookup (mkdirUpto fs p n).nodes (p.take (n + 1))).isSome = true
      · rw [if_pos hcase]
        exact ih (by omega) k hkn hnone
      · rw [if_neg hcase, alookup_setRaw, if_neg hne]
        exact ih (by omega) k hkn hnone
    · have hk_eq : k = n := by omega
      subst hk_eq
      have huntouched : alookup (mkdirUpto fs p k).nodes (p.take (k + 1)) =
          alookup fs.nodes (p.take (k + 1)) := by
        refine mkdirUpto_untouched fs p k (p.take (k + 1)) ?_
        intro j hj
        exact fun h => take_succ_ne_take_succ hj (by omega) h.symm
      rw [huntouched, hnone]
      simp only [Option.isSome_none]
      rw [if_neg (by simp), alookup_setRaw, if_pos rfl]

theorem mkdirUpto_preserves_some {fs : FS} {p : Path} :
    ∀ n q v, alookup fs.nodes q = some v →
      alookup (mkdirUpto fs p n).nodes q = some v := by
  intro n
  induction n with
  | zero => intro q v h; exact h
  | succ n ih =>
    intro q v h
    simp only [mkdirUpto]
    by_cases hcase : (alookup (mkdirUpto fs p n).nodes (p.take (n + 1))).isSome = true
    · rw [if_pos hcase]
      exact ih q v h
    · rw [if_neg hcase, alookup_setRaw, if_neg, ih q v h]
      intro hcontra
      rw [hcontra] at h
      rw [ih _ _ h] at hcase
      simp at hcase

/-- Resolving `xs ++ [c]` when every component of `xs` is physical and the
final component is a symbolic link to the physical path `E` yields `E`. -/
theorem npath_through_link {fs : FS} {xs E : Path} {c : String}
    (hphys_xs : ∀ q, q ≠ [] → q <+: xs → symTarget (alookup fs.nodes q) = none)
    (hlink : symTarget (alookup fs.nodes (xs ++ [c])) = some E)
    (hphys_E : ∀ q, q ≠ [] → q <+: E → symTarget (alookup fs.nodes q) = none) :
    fs.npath (xs ++ [c]) = some E := by
  have hwalk : fs.walk [] (xs ++ [c]) = Sum.inr (E, []) := by
    rw [walk_append]
    rw [walk_physical fs xs [] (by
      intro q hq hp
      simpa using hphys_xs q hq hp)]
    simp only [List.nil_append, FS.walk, hlink]
  rw [FS.npath, show _FUEL = 63 + 1 from rfl, FS.resolveFrom, hwalk]
  have := resolveFrom_physical_self fs 63 [] E (by
    intro q hq hp
    simpa using hphys_E q hq hp)
  simpa using this

/-! ### Sample filesystems for concrete witnesses -/

/-- A working copy holding a fully committed `_project` entry. -/
def sampleStore : FS :=
  ⟨[(["r"], Node.dir true), (["r", ".osc"], Node.dir true),
    (["r", ".osc", "data"], Node.dir true),
    (["r", ".osc", "_project"], Node.file "old\n")], []⟩

/-! ### Claims -/

/-- Claim C2: `wc_is_project` is true exactly when
`missing_storepaths(path, '_apiurl', '_project', '_package')` returns the
one-element list `['_package']`, `wc_is_package` is true exactly when that
call returns the empty list, and the two predicates are never both true. -/
theorem c2_classifier_missing_characterization (fs : FS) (path : Path) :
    (wc_is_project fs path = true ↔
      missing_storepaths fs path ["_apiurl", "_project", "_package"] false false
        = ["_package"]) ∧
    (wc_is_package fs path = true ↔
      missing_storepaths fs path ["_apiurl", "_project", "_package"] false false
        = []) ∧
    ¬(wc_is_project fs path = true ∧ wc_is_package fs path = true) := by
  have key : ∀ m : List String,
      ((if m = [] then false
        else if m.length = 1 ∧ "_package" ∈ m then true else false) = true
       ↔ m = ["_package"]) := by
    intro m
    rcases m with _ | ⟨a, _ | ⟨b, rest⟩⟩
    · simp
    · by_cases ha : a = "_package" <;> simp [ha, eq_comm]
    · simp
  have hproj : wc_is_project fs path = true ↔
      missing_storepaths fs path ["_apiurl", "_project", "_package"] false false
        = ["_package"] :=
    key (missing_storepaths fs path ["_apiurl", "_project", "_package"] false false)
  have hpack : wc_is_package fs path = true ↔
      missing_storepaths fs path ["_apiurl", "_project", "_package"] false false
        = [] := by
    simp [wc_is_package]
  refine ⟨hproj, hpack, ?_⟩
  rintro ⟨hp, hk⟩
  rw [hproj] at hp
  rw [hpack] at hk
  rw [hk] at hp
  exact absurd hp (by simp)

/-- Claim C9: when the path has no store directory, `missing_storepaths`
returns the full input list unchanged, for any `dirs` and `data`
options. -/
theorem c9_missing_no_storedir (fs : FS) (path : Path) (names : List String)
    (dirs data : Bool) (h : _has_storedir fs path = false) :
    missing_storepaths fs path names dirs data = names := by
  simp [missing_storepaths, h]

/-- Witness for C9 at a storeless filesystem. -/
theorem c9_missing_no_storedir_witness :
    _has_storedir (⟨[], []⟩ : FS) ["r"] = false ∧
    missing_storepaths (⟨[], []⟩ : FS) ["r"] ["_apiurl", "_project"] true false
      = ["_apiurl", "_project"] :=
  ⟨by decide, c9_missing_no_storedir ⟨[], []⟩ ["r"] ["_apiurl", "_project"]
    true false (by decide)⟩

theorem missingLoop_sublist (fs : FS) (sd : Path) (dirs : Bool) :
    ∀ names : List String, List.Sublist (missingLoop fs sd dirs names) names := by
  intro names
  induction names with
  | nil => simp [missingLoop]
  | cons p ps ih =>
    simp only [missingLoop]
    by_cases hd : dirs = true
    · rw [if_pos hd]
      by_cases h : fs.isdir (sd ++ [p]) = true
      · rw [if_pos h]; exact ih.cons p
      · rw [if_neg h]; exact ih.cons₂ p
    · rw [if_neg hd]
      by_cases h : fs.isfile (sd ++ [p]) = true
      · rw [if_pos h]; exact ih.cons p
      · rw [if_neg h]; exact ih.cons₂ p

/-- Claim C10: the list returned by `missing_storepaths` is always a
subsequence of the input names, for any store state and options. -/
theorem c10_missing_sublist (fs : FS) (path : Path) (names : List String)
    (dirs data : Bool) :
    List.Sublist (missing_storepaths fs path names dirs data) names := by
  unfold missing_storepaths
  by_cases h : _has_storedir fs path = true
  · rw [if_pos h]
    exact missingLoop_sublist fs _ dirs names
  · rw [if_neg h]

/-- Claim C7: a second `wc_init` on a root that already has a store fails
with the already-a-working-copy `ValueError` and leaves the filesystem —
hence the existing store and every entry in it — unchanged. -/
theorem c7_double_init (fs : FS) (path : Path)
    (h : fs.path_exists (_storedir path) = true) :
    wc_init fs path none =
      ⟨some (PyErr.valueError ("path \"" ++ showPath path ++
        "\" is already a working copy")), fs⟩ := by
  simp [wc_init, h]

/-- Witness for C7 on a root that already has a store. -/
theorem c7_double_init_witness :
    FS.path_exists sampleStore (_storedir ["r"]) = true ∧
    wc_init sampleStore ["r"] none =
      ⟨some (PyErr.valueError ("path \"" ++ showPath ["r"] ++
        "\" is already a working copy")), sampleStore⟩ :=
  ⟨by decide, c7_double_init sampleStore ["r"] (by decide)⟩

/-- Claim C1 (divergence witness): with a committed `_project` entry
holding `"old\n"`, a fault raised inside `tmpfile.write(data)` after three
characters leaves the exception propagating, yet the `finally` block has
renamed the half-written temporary file over the target: the entry now
holds `"new"` instead of the previous committed content, although the
temporary name is gone. -/
theorem c1_partial_write_clobbers_target :
    _read_storefile sampleStore ["r"] "_project" = Except.ok "old" ∧
    (_write_storefile sampleStore ["r"] "_project" "newvalue" "tmp421"
        (some (WriteFault.writeData 3))).err = some PyErr.injected ∧
    alookup (_write_storefile sampleStore ["r"] "_project" "newvalue" "tmp421"
        (some (WriteFault.writeData 3))).fs.nodes ["r", ".osc", "_project"]
      = some (Node.file "new") ∧
    alookup (_write_storefile sampleStore ["r"] "_project" "newvalue" "tmp421"
        (some (WriteFault.writeData 3))).fs.nodes ["r", ".osc", "tmp421"]
      = none ∧
    _read_storefile (_write_storefile sampleStore ["r"] "_project" "newvalue"
        "tmp421" (some (WriteFault.writeData 3))).fs ["r"] "_project"
      = Except.ok "new" := by
  decide

/-- Claim C8: on a non-existing root whose prefixes are clean, `wc_init`
creates the root directory recursively; a makedirs failure with errno
EACCES surfaces as the distinct permission `ValueError`, while any other
errno propagates as the unchanged `OSError`. -/
theorem c8_makedirs_errors (fs : FS) (path : Path)
    (hne : path ≠ [])
    (hclean : fs.cleanPrefixes path = true)
    (hstore : fs.path_exists (_storedir path) = false)
    (hpath : fs.path_exists path = false) :
    (∀ e, alookup fs.mkdirErrors path = some e → e ≠ EACCES →
      wc_init fs path none = ⟨some (PyErr.osError e), fs⟩) ∧
    (alookup fs.mkdirErrors path = some EACCES →
      wc_init fs path none = ⟨some (PyErr.valueError
        ("no permission to create path \"" ++ showPath path ++ "\"")), fs⟩) ∧
    (alookup fs.mkdirErrors path = none →
      ∀ n, n < path.length →
        (wc_init fs path none).fs.isdir (path.take (n + 1)) = true) := by
  have hlen : 0 < path.length := List.length_pos.mpr hne
  refine ⟨?_, ?_, ?_⟩
  · intro e he hne13
    simp [wc_init, FS.makedirs, hstore, hpath, he, hne13]
  · intro he
    simp [wc_init, FS.makedirs, hstore, hpath, he]
  · intro hor n hn
    -- the makedirs step succeeds and yields `fs.mkdirAll path`
    have hphys := cleanPrefixes_physicalAlong hclean
    have hraw_path : alookup fs.nodes path = none := by
      have h1 : fs.lookup path = alookup fs.nodes path :=
        lookup_physical (fun q hq hpre => hphys q hq hpre)
      have h2 : fs.lookup path = none := by
        rw [FS.path_exists] at hpath
        cases h : fs.lookup path with
        | none => rfl
        | some m => rw [h] at hpath; simp at hpath
      rw [← h1, h2]
    set fs₁ := fs.mkdirAll path with hfs₁
    have hsym₁ : symEq fs fs₁ := mkdirUpto_symEq path.length
    have hdirs₁ : ∀ k, k < path.length →
        ∃ w, alookup fs₁.nodes (path.take (k + 1)) = some (Node.dir w) :=
      fun k hk => mkdirUpto_dir hclean path.length (Nat.le_refl _) k hk
    -- `path` itself is now a writable directory
    have hpath_dir : alookup fs₁.nodes path = some (Node.dir true) := by
      have := mkdirUpto_creates (p := path) path.length (Nat.le_refl _)
        (path.length - 1) (by omega) (by rwa [show path.length - 1 + 1 = path.length by omega, List.take_length])
      rwa [show path.length - 1 + 1 = path.length by omega, List.take_length] at this
    -- physical resolution inside any filesystem link-equal to `fs`
    have hphys_in : ∀ g : FS, symEq fs g →
        ∀ q, q ≠ [] → q <+: path → symTarget (alookup g.nodes q) = none := by
      intro g hsym q hq hpre
      rw [← hsym q]
      exact hphys q hq hpre
    -- generic conclusion for any link-equal filesystem with dirs at prefixes
    have main : ∀ g : FS, symEq fs g →
        (∀ k, k < path.length →
          ∃ w, alookup g.nodes (path.take (k + 1)) = some (Node.dir w)) →
        g.isdir (path.take (n + 1)) = true := by
      intro g hsym hdirs
      have hpre_take : path.take (n + 1) <+: path := List.take_prefix _ _
      have hphys_take : ∀ q, q ≠ [] → q <+: path.take (n + 1) →
          symTarget (alookup g.nodes q) = none :=
        fun q hq hpre => hphys_in g hsym q hq (hpre.trans hpre_take)
      obtain ⟨w, hw⟩ := hdirs n hn
      rw [FS.isdir, lookup_physical hphys_take, hw]
    -- preservation of the prefix directories across a longer-key insert
    have hpreserve : ∀ (g : FS) (key : Path) (nd : Node), path.length < key.length →
        (∀ k, k < path.length →
          ∃ w, alookup g.nodes (path.take (k + 1)) = some (Node.dir w)) →
        (∀ k, k < path.length →
          ∃ w, alookup (g.setRaw key nd).nodes (path.take (k + 1))
            = some (Node.dir w)) := by
      intro g key nd hklen hdirs k hk
      obtain ⟨w, hw⟩ := hdirs k hk
      refine ⟨w, ?_⟩
      rw [alookup_setRaw, if_neg, hw]
      intro hcontra
      have := congrArg List.length hcontra
      rw [List.length_take] at this
      omega
    -- now trace the remaining branches of wc_init
    have haccess : fs₁.accessW path = true := by
      rw [FS.accessW, lookup_physical (hphys_in fs₁ hsym₁), hpath_dir]
    have hnpath₁ : fs₁.npath path = some path :=
      npath_physical (hphys_in fs₁ hsym₁)
    simp only [wc_init, FS.makedirs, hstore, hpath, hor]
    simp only [Bool.false_and, Bool.not_false, if_false, Bool.not_true,
      Bool.false_eq_true, if_true]
    simp only [haccess, ← hfs₁]
    rw [if_neg (by simp)]
    have hres₁ : fs₁.resolveFrom _FUEL [] path = some path := hnpath₁
    have hsplit : fs₁.splitResolve (_storedir path) = some (path, _STORE) := by
      rw [FS.splitResolve]
      have hgl : (_storedir path).getLast? = some _STORE := by simp [_storedir]
      have hdl : (_storedir path).dropLast = path := by simp [_storedir]
      rw [hgl, hdl, hres₁]
      rfl
    by_cases hosc : (alookup fs₁.nodes (path ++ [_STORE])).isSome = true
    · have hmk : fs₁.mkdir (_storedir path) = Except.error 17 := by
        simp only [FS.mkdir, hsplit, hpath_dir]
        rw [if_pos hosc]
      rw [hmk]
      dsimp only
      exact main fs₁ hsym₁ hdirs₁
    · have hmk : fs₁.mkdir (_storedir path) =
          Except.ok (fs₁.setRaw (path ++ [_STORE]) (Node.dir true)) := by
        simp only [FS.mkdir, hsplit, hpath_dir]
        rw [if_neg hosc]
      rw [hmk]
      dsimp only
      set fs₂ := fs₁.setRaw (path ++ [_STORE]) (Node.dir true) with hfs₂
      have hosc_none : alookup fs₁.nodes (path ++ [_STORE]) = none := by
        cases h : alookup fs₁.nodes (path ++ [_STORE]) with
        | none => rfl
        | some m => rw [h] at hosc; simp at hosc
      have hsym₂ : symEq fs fs₂ :=
        symEq_trans hsym₁ (symEq_setRaw (by rw [hosc_none]; rfl) rfl)
      have hdirs₂ : ∀ k, k < path.length →
          ∃ w, alookup fs₂.nodes (path.take (k + 1)) = some (Node.dir w) :=
        hpreserve fs₁ (path ++ [_STORE]) (Node.dir true) (by simp) hdirs₁
      have hstep₂ : alookup fs₂.nodes (path ++ [_STORE]) = some (Node.dir true) := by
        rw [hfs₂, alookup_setRaw, if_pos rfl]
      have hnp₂ : fs₂.npath (path ++ [_STORE]) = some (path ++ [_STORE]) := by
        refine npath_snoc (npath_physical (hphys_in fs₂ hsym₂)) ?_
        rw [hstep₂]
        rfl
      have hres₂ : fs₂.resolveFrom _FUEL [] (path ++ [_STORE]) =
          some (path ++ [_STORE]) := hnp₂
      have hsplit₂ : fs₂.splitResolve (_storefile path _PKG_DATA) =
          some (path ++ [_STORE], _PKG_DATA) := by
        rw [FS.splitResolve]
        have hgl : (_storefile path _PKG_DATA).getLast? = some _PKG_DATA := by
          simp [_storefile, _storedir]
        have hdl : (_storefile path _PKG_DATA).dropLast = path ++ [_STORE] := by
          simp [_storefile, _storedir]
        rw [hgl, hdl, hres₂]
        rfl
      by_cases hdata : (alookup fs₂.nodes ((path ++ [_STORE]) ++ [_PKG_DATA])).isSome = true
      · have hmk₂ : fs₂.mkdir (_storefile path _PKG_DATA) = Except.error 17 := by
          simp only [FS.mkdir, hsplit₂, hstep₂]
          rw [if_pos hdata]
        rw [hmk₂]
        dsimp only
        exact main fs₂ hsym₂ hdirs₂
      · have hmk₂ : fs₂.mkdir (_storefile path _PKG_DATA) =
            Except.ok (fs₂.setRaw ((path ++ [_STORE]) ++ [_PKG_DATA]) (Node.dir true)) := by
          simp only [FS.mkdir, hsplit₂, hstep₂]
          rw [if_neg hdata]
        rw [hmk₂]
        dsimp only
        have hdata_none : alookup fs₂.nodes ((path ++ [_STORE]) ++ [_PKG_DATA]) = none := by
          cases h : alookup fs₂.nodes ((path ++ [_STORE]) ++ [_PKG_DATA]) with
          | none => rfl
          | some m => rw [h] at hdata; simp at hdata
        have hsym₃ : symEq fs (fs₂.setRaw ((path ++ [_STORE]) ++ [_PKG_DATA]) (Node.dir true)) :=
          symEq_trans hsym₂ (symEq_setRaw (by rw [hdata_none]; rfl) rfl)
        have hdirs₃ : ∀ k, k < path.length →
            ∃ w, alookup (fs₂.setRaw ((path ++ [_STORE]) ++ [_PKG_DATA])
              (Node.dir true)).nodes (path.take (k + 1)) = some (Node.dir w) :=
          hpreserve fs₂ ((path ++ [_STORE]) ++ [_PKG_DATA]) (Node.dir true) (by simp) hdirs₂
        exact main _ hsym₃ hdirs₃

/-- Witness for C8: an injected errno 28 propagates as `OSError`, errno 13
becomes the permission `ValueError`, and with no fault both components of
the two-level root are created as directories. -/
theorem c8_makedirs_errors_witness :
    wc_init (⟨[], [(["p", "q"], 28)]⟩ : FS) ["p", "q"] none
      = ⟨some (PyErr.osError 28), ⟨[], [(["p", "q"], 28)]⟩⟩ ∧
    wc_init (⟨[], [(["p", "q"], 13)]⟩ : FS) ["p", "q"] none
      = ⟨some (PyErr.valueError ("no permission to create path \"" ++
          showPath ["p", "q"] ++ "\"")), ⟨[], [(["p", "q"], 13)]⟩⟩ ∧
    (wc_init (⟨[], []⟩ : FS) ["p", "q"] none).fs.isdir (["p", "q"].take (0 + 1)) = true ∧
    (wc_init (⟨[], []⟩ : FS) ["p", "q"] none).fs.isdir (["p", "q"].take (1 + 1)) = true :=
  ⟨(c8_makedirs_errors ⟨[], [(["p", "q"], 28)]⟩ ["p", "q"] (by decide) (by decide)
      (by decide) (by decide)).1 28 (by decide) (by decide),
   (c8_makedirs_errors ⟨[], [(["p", "q"], 13)]⟩ ["p", "q"] (by decide) (by decide)
      (by decide) (by decide)).2.1 (by decide),
   (c8_makedirs_errors ⟨[], []⟩ ["p", "q"] (by decide) (by decide)
      (by decide) (by decide)).2.2 (by decide) 0 (by decide),
   (c8_makedirs_errors ⟨[], []⟩ ["p", "q"] (by decide) (by decide)
      (by decide) (by decide)).2.2 (by decide) 1 (by decide)⟩

/-- Inversion of the final two `mkdir` steps of a successful `wc_init`
run with no external store: characterizes the resulting filesystem and
the state of the freshly created store. -/
theorem init_tail (fs fs₁ fs' : FS) (path : Path)
    (hwf : fs.wfB = true)
    (hphys : ∀ q, q ≠ [] → q <+: path → symTarget (alookup fs.nodes q) = none)
    (hsym : symEq fs fs₁)
    (hdirw : ∃ w, alookup fs₁.nodes path = some (Node.dir w))
    (hup : ∀ q : Path, path.length < q.length →
      alookup fs₁.nodes q = alookup fs.nodes q)
    (htail : (match fs₁.mkdir (_storedir path) with
              | Except.error e => (⟨some (PyErr.osError e), fs₁⟩ : InitResult)
              | Except.ok fs₂ =>
                match fs₂.mkdir (_storefile path _PKG_DATA) with
                | Except.error e => ⟨some (PyErr.osError e), fs₂⟩
                | Except.ok fs₃ => ⟨none, fs₃⟩) = ⟨none, fs'⟩) :
    fs'.isdir (_storedir path) = true ∧
    fs'.isdir (_storefile path _PKG_DATA) = true ∧
    wc_is_project fs' path = false ∧
    wc_is_package fs' path = false ∧
    (∀ name, _read_storefile fs' path name = Except.error (readErrMsg name)) := by
  obtain ⟨w, hpdir⟩ := hdirw
  have hphys₁ : ∀ q, q ≠ [] → q <+: path → symTarget (alookup fs₁.nodes q) = none := by
    intro q hq hp
    rw [← hsym q]
    exact hphys q hq hp
  have hres₁ : fs₁.resolveFrom _FUEL [] path = some path := npath_physical hphys₁
  have hsplit : fs₁.splitResolve (_storedir path) = some (path, _STORE) := by
    rw [FS.splitResolve]
    have hgl : (_storedir path).getLast? = some _STORE := by simp [_storedir]
    have hdl : (_storedir path).dropLast = path := by simp [_storedir]
    rw [hgl, hdl, hres₁]
    rfl
  cases hosc : (alookup fs₁.nodes (path ++ [_STORE])).isSome with
  | true =>
    have hmk : fs₁.mkdir (_storedir path) = Except.error 17 := by
      simp only [FS.mkdir, hsplit, hpdir]
      rw [if_pos hosc]
    rw [hmk] at htail
    simp at htail
  | false =>
    have hosc_none : alookup fs₁.nodes (path ++ [_STORE]) = none := by
      cases h : alookup fs₁.nodes (path ++ [_STORE]) with
      | none => rfl
      | some m => rw [h] at hosc; simp at hosc
    have hmk : fs₁.mkdir (_storedir path) =
        Except.ok (fs₁.setRaw (path ++ [_STORE]) (Node.dir true)) := by
      simp only [FS.mkdir, hsplit, hpdir]
      rw [if_neg (by rw [hosc]; simp)]
    rw [hmk] at htail
    dsimp only at htail
    set fs₂ := fs₁.setRaw (path ++ [_STORE]) (Node.dir true) with hfs₂
    have hsym₂ : symEq fs fs₂ :=
      symEq_trans hsym (symEq_setRaw (by rw [hosc_none]; rfl) rfl)
    have hphys₂ : ∀ q, q ≠ [] → q <+: path → symTarget (alookup fs₂.nodes q) = none := by
      intro q hq hp
      rw [← hsym₂ q]
      exact hphys q hq hp
    have hstep₂ : alookup fs₂.nodes (path ++ [_STORE]) = some (Node.dir true) := by
      rw [hfs₂, alookup_setRaw, if_pos rfl]
    have hnp₂ : fs₂.npath (path ++ [_STORE]) = some (path ++ [_STORE]) := by
      refine npath_snoc (npath_physical hphys₂) ?_
      rw [hstep₂]
      rfl
    have hres₂ : fs₂.resolveFrom _FUEL [] (path ++ [_STORE]) =
        some (path ++ [_STORE]) := hnp₂
    have hsplit₂ : fs₂.splitResolve (_storefile path _PKG_DATA) =
        some (path ++ [_STORE], _PKG_DATA) := by
      rw [FS.splitResolve]
      have hgl : (_storefile path _PKG_DATA).getLast? = some _PKG_DATA := by
        simp [_storefile, _storedir]
      have hdl : (_storefile path _PKG_DATA).dropLast = path ++ [_STORE] := by
        simp [_storefile, _storedir]
      rw [hgl, hdl, hres₂]
      rfl
    cases hdata : (alookup fs₂.nodes ((path ++ [_STORE]) ++ [_PKG_DATA])).isSome with
    | true =>
      have hmk₂ : fs₂.mkdir (_storefile path _PKG_DATA) = Except.error 17 := by
        simp only [FS.mkdir, hsplit₂, hstep₂]
        rw [if_pos hdata]
      rw [hmk₂] at htail
      simp at htail
    | false =>
      have hdata_none : alookup fs₂.nodes ((path ++ [_STORE]) ++ [_PKG_DATA]) = none := by
        cases h : alookup fs₂.nodes ((path ++ [_STORE]) ++ [_PKG_DATA]) with
        | none => rfl
        | some m => rw [h] at hdata; simp at hdata
      have hmk₂ : fs₂.mkdir (_storefile path _PKG_DATA) =
          Except.ok (fs₂.setRaw ((path ++ [_STORE]) ++ [_PKG_DATA]) (Node.dir true)) := by
        simp only [FS.mkdir, hsplit₂, hstep₂]
        rw [if_neg (by rw [hdata]; simp)]
      rw [hmk₂] at htail
      dsimp only at htail
      have hfseq : fs₂.setRaw ((path ++ [_STORE]) ++ [_PKG_DATA]) (Node.dir true) = fs' := by
        have := htail
        simp only [InitResult.mk.injEq] at this
        exact this.2
      -- all raw facts about the final filesystem
      have hlen_sd : (path ++ [_STORE]).length = path.length + 1 := by simp
      have hlen_dd : ((path ++ [_STORE]) ++ [_PKG_DATA]).length = path.length + 2 := by simp
      have hraw_dd : alookup fs'.nodes ((path ++ [_STORE]) ++ [_PKG_DATA])
          = some (Node.dir true) := by
        rw [← hfseq, alookup_setRaw, if_pos rfl]
      have hraw_sd : alookup fs'.nodes (path ++ [_STORE]) = some (Node.dir true) := by
        rw [← hfseq, alookup_setRaw, if_neg, hstep₂]
        intro hcontra
        have := congrArg List.length hcontra
        rw [hlen_sd, hlen_dd] at this
        omega
      have hraw_path : alookup fs'.nodes path = some (Node.dir w) := by
        rw [← hfseq, alookup_setRaw, if_neg, hfs₂, alookup_setRaw, if_neg, hpdir]
        · intro hcontra
          have := congrArg List.length hcontra
          rw [hlen_sd] at this
          omega
        · intro hcontra
          have := congrArg List.length hcontra
          rw [hlen_dd] at this
          omega
      have hraw_entry : ∀ name : String, name ≠ _PKG_DATA →
          alookup fs'.nodes ((path ++ [_STORE]) ++ [name]) = none := by
        intro name hnd
        have hkey : ((path ++ [_STORE]) ++ [name]).length = path.length + 2 := by simp
        have h1 : alookup fs'.nodes ((path ++ [_STORE]) ++ [name])
            = alookup fs₂.nodes ((path ++ [_STORE]) ++ [name]) := by
          rw [← hfseq, alookup_setRaw, if_neg]
          intro hcontra
          have := List.append_inj' hcontra rfl
          exact hnd (by simpa using this.2)
        have h2 : alookup fs₂.nodes ((path ++ [_STORE]) ++ [name])
            = alookup fs₁.nodes ((path ++ [_STORE]) ++ [name]) := by
          rw [hfs₂, alookup_setRaw, if_neg]
          intro hcontra
          have := congrArg List.length hcontra
          rw [hkey, hlen_sd] at this
          omega
        have h3 : alookup fs₁.nodes ((path ++ [_STORE]) ++ [name])
            = alookup fs.nodes ((path ++ [_STORE]) ++ [name]) :=
          hup _ (by rw [hkey]; omega)
        have h4 : alookup fs.nodes (path ++ [_STORE]) = none := by
          rw [← hup _ (by rw [hlen_sd]; omega), hosc_none]
        rw [h1, h2, h3]
        exact wfB_no_orphan hwf h4
      -- physical resolution of the store paths in the final filesystem
      have hsym' : symEq fs fs' := by
        rw [← hfseq]
        exact symEq_trans hsym₂ (symEq_setRaw (by rw [hdata_none]; rfl) rfl)
      have hphys' : ∀ q, q ≠ [] → q <+: path → symTarget (alookup fs'.nodes q) = none := by
        intro q hq hp
        rw [← hsym' q]
        exact hphys q hq hp
      have hphys_sd : ∀ q, q ≠ [] → q <+: path ++ [_STORE] →
          symTarget (alookup fs'.nodes q) = none := by
        intro q hq hp
        rcases prefix_snoc_cases hp with h | h
        · exact hphys' q hq h
        · rw [h, hraw_sd]; rfl
      have hphys_dd : ∀ q, q ≠ [] → q <+: (path ++ [_STORE]) ++ [_PKG_DATA] →
          symTarget (alookup fs'.nodes q) = none := by
        intro q hq hp
        rcases prefix_snoc_cases hp with h | h
        · exact hphys_sd q hq h
        · rw [h, hraw_dd]; rfl
      have hisdir_sd : fs'.isdir (_storedir path) = true := by
        rw [FS.isdir, show _storedir path = path ++ [_STORE] from rfl,
          lookup_physical hphys_sd, hraw_sd]
      have hisdir_dd : fs'.isdir (_storefile path _PKG_DATA) = true := by
        rw [FS.isdir,
          show _storefile path _PKG_DATA = (path ++ [_STORE]) ++ [_PKG_DATA] from rfl,
          lookup_physical hphys_dd, hraw_dd]
      have hisdir_path : fs'.isdir path = true := by
        rw [FS.isdir, lookup_physical hphys', hraw_path]
      have hisfile : ∀ name : String,
          fs'.isfile ((path ++ [_STORE]) ++ [name]) = false := by
        intro name
        by_cases hnd : name = _PKG_DATA
        · subst hnd
          rw [FS.isfile, lookup_physical hphys_dd, hraw_dd]
        · have hphys_e : ∀ q, q ≠ [] → q <+: (path ++ [_STORE]) ++ [name] →
              symTarget (alookup fs'.nodes q) = none := by
            intro q hq hp
            rcases prefix_snoc_cases hp with h | h
            · exact hphys_sd q hq h
            · rw [h, hraw_entry name hnd]; rfl
          rw [FS.isfile, lookup_physical hphys_e, hraw_entry name hnd]
      have hhas : _has_storedir fs' path = true := by
        rw [_has_storedir, hisdir_path, hisdir_sd]
        rfl
      have hloop : ∀ names : List String,
          missingLoop fs' (_storedir path) false names = names := by
        intro names
        induction names with
        | nil => rfl
        | cons p ps ih =>
          simp only [missingLoop, if_neg]
          rw [show _storedir path ++ [p] = (path ++ [_STORE]) ++ [p] from rfl]
          rw [hisfile p]
          simp [ih]
      have hmissing : ∀ names : List String,
          missing_storepaths fs' path names false false = names := by
        intro names
        rw [missing_storepaths, if_pos hhas]
        exact hloop names
      refine ⟨hisdir_sd, hisdir_dd, ?_, ?_, ?_⟩
      · rw [wc_is_project]
        rw [hmissing ["_apiurl", "_project", "_package"]]
        simp
      · rw [wc_is_package]
        rw [hmissing ["_apiurl", "_project", "_package"]]
        simp
      · intro name
        rw [_read_storefile, if_pos (by rw [hmissing [name]]; simp)]

/-- Claim C5: after a successful `wc_init` with no external store, before
any entry is written, the store directory and its data subdirectory exist,
the root is classified as neither project nor package, and reading any
entry raises the entry-level `ValueError` naming the missing storefile. -/
theorem c5_post_init_state (fs : FS) (path : Path) (fs' : FS)
    (hwf : fs.wfB = true)
    (hclean : fs.cleanPrefixes path = true)
    (hinit : wc_init fs path none = ⟨none, fs'⟩) :
    fs'.isdir (_storedir path) = true ∧
    fs'.isdir (_storefile path _PKG_DATA) = true ∧
    wc_is_project fs' path = false ∧
    wc_is_package fs' path = false ∧
    (∀ name, _read_storefile fs' path name = Except.error (readErrMsg name)) := by
  have hphys := cleanPrefixes_physicalAlong hclean
  cases hstore : fs.path_exists (_storedir path) with
  | true => rw [wc_init] at hinit; simp [hstore] at hinit
  | false =>
  cases hex : fs.path_exists path with
  | true =>
    cases hdir : fs.isdir path with
    | false => rw [wc_init] at hinit; simp [hstore, hex, hdir] at hinit
    | true =>
      have hdirw : ∃ w, alookup fs.nodes path = some (Node.dir w) := by
        have hlk : fs.lookup path = alookup fs.nodes path := lookup_physical hphys
        rw [FS.isdir, hlk] at hdir
        cases h : alookup fs.nodes path with
        | none => rw [h] at hdir; simp at hdir
        | some m =>
          cases m with
          | file c => rw [h] at hdir; simp at hdir
          | dir w => exact ⟨w, rfl⟩
          | symlink t => rw [h] at hdir; simp at hdir
      cases haccess : fs.accessW path with
      | false => rw [wc_init] at hinit; simp [hstore, hex, hdir, haccess] at hinit
      | true =>
        rw [wc_init] at hinit
        simp only [hstore, hex, hdir, haccess, Bool.not_true, Bool.false_eq_true,
          if_false, Bool.true_and, Bool.and_self, Bool.not_false, if_true,
          Bool.true_eq_false] at hinit
        exact init_tail fs fs fs' path hwf hphys (symEq_refl fs) hdirw
          (fun q _ => rfl) hinit
  | false =>
    cases horacle : alookup fs.mkdirErrors path with
    | some e =>
      by_cases he : e = EACCES
      · rw [wc_init] at hinit
        simp [hstore, hex, FS.makedirs, horacle, he] at hinit
      · rw [wc_init] at hinit
        simp [hstore, hex, FS.makedirs, horacle, he] at hinit
    | none =>
      have hraw_path : alookup fs.nodes path = none := by
        have h1 : fs.lookup path = alookup fs.nodes path := lookup_physical hphys
        cases h : alookup fs.nodes path with
        | none => rfl
        | some m =>
          rw [FS.path_exists, h1, h] at hex
          simp at hex
      by_cases hne : path = []
      · subst hne
        have hacc : fs.accessW ([] : Path) = false := by
          rw [FS.accessW, show fs.lookup ([] : Path) = alookup fs.nodes []
            from lookup_physical (fun q hq hp => absurd (List.prefix_nil.mp hp) hq),
            hraw_path]
        rw [wc_init] at hinit
        simp [hstore, hex, FS.makedirs, horacle, FS.mkdirAll, mkdirUpto, hacc] at hinit
      · have hlen : 0 < path.length := List.length_pos.mpr hne
        have hsym₁ : symEq fs (fs.mkdirAll path) := mkdirUpto_symEq path.length
        have hpath_dir : alookup (fs.mkdirAll path).nodes path
            = some (Node.dir true) := by
          have := mkdirUpto_creates (p := path) path.length (Nat.le_refl _)
            (path.length - 1) (by omega)
            (by rwa [show path.length - 1 + 1 = path.length by omega, List.take_length])
          rwa [show path.length - 1 + 1 = path.length by omega, List.take_length] at this
        have hup : ∀ q : Path, path.length < q.length →
            alookup (fs.mkdirAll path).nodes q = alookup fs.nodes q := by
          intro q hq
          refine mkdirUpto_untouched fs path path.length q ?_
          intro k hk hqe
          have := congrArg List.length hqe
          rw [List.length_take] at this
          omega
        have hphys₁ : ∀ q, q ≠ [] → q <+: path →
            symTarget (alookup (fs.mkdirAll path).nodes q) = none := by
          intro q hq hp
          rw [← hsym₁ q]
          exact hphys q hq hp
        have haccess : (fs.mkdirAll path).accessW path = true := by
          rw [FS.accessW, lookup_physical hphys₁, hpath_dir]
        rw [wc_init] at hinit
        simp only [hstore, hex, FS.makedirs, horacle, haccess, Bool.not_true,
          Bool.false_eq_true, if_false, Bool.false_and, Bool.not_false, if_true,
          Bool.true_eq_false] at hinit
        exact init_tail fs (fs.mkdirAll path) fs' path hwf hphys hsym₁
          ⟨true, hpath_dir⟩ hup hinit

/-- Witness for C5 on an initially empty filesystem. -/
theorem c5_post_init_state_witness :
    (wc_init (⟨[], []⟩ : FS) ["r"] none).fs.isdir (_storedir ["r"]) = true ∧
    (wc_init (⟨[], []⟩ : FS) ["r"] none).fs.isdir (_storefile ["r"] _PKG_DATA) = true ∧
    wc_is_project (wc_init (⟨[], []⟩ : FS) ["r"] none).fs ["r"] = false ∧
    wc_is_package (wc_init (⟨[], []⟩ : FS) ["r"] none).fs ["r"] = false ∧
    _read_storefile (wc_init (⟨[], []⟩ : FS) ["r"] none).fs ["r"] "_apiurl"
      = Except.error (readErrMsg "_apiurl") :=
  have h := c5_post_init_state ⟨[], []⟩ ["r"]
    (wc_init (⟨[], []⟩ : FS) ["r"] none).fs (by decide) (by decide) (by decide)
  ⟨h.1, h.2.1, h.2.2.1, h.2.2.2.1, h.2.2.2.2 "_apiurl"⟩

/-- Claim C6: `wc_init` with an external store directory fails with the
external-store `ValueError` when the directory is not an existing writable
directory; on success the store is a symbolic link to the external
directory and the data path physically resolves to a directory under it. -/
theorem c6_external_storedir (fs : FS) (path E : Path) (fs' : FS) :
    ((fs.isdir E && fs.accessW E) = false →
      wc_init fs path (some E) = ⟨some (PyErr.valueError ("ext_storedir \"" ++
        showPath E ++ "\" is no dir or not writable")), fs⟩) ∧
    (fs.cleanPrefixes path = true →
     fs.physicalAlong E = true →
     ¬(_storedir path <+: E) →
     wc_init fs path (some E) = ⟨none, fs'⟩ →
     alookup fs'.nodes (_storedir path) = some (Node.symlink E) ∧
     fs'.npath (_storefile path _PKG_DATA) = some (E ++ [_PKG_DATA]) ∧
     alookup fs'.nodes (E ++ [_PKG_DATA]) = some (Node.dir true)) := by
  constructor
  · intro hbad
    rw [wc_init]
    simp [hbad]
  · intro hclean hphysE hnpre hinit
    have hphys := cleanPrefixes_physicalAlong hclean
    have hphysE' := physicalAlong_spec hphysE
    -- the external-store check passed
    cases hE : (fs.isdir E && fs.accessW E) with
    | false => rw [wc_init] at hinit; simp [hE] at hinit
    | true =>
    have hEdir : fs.isdir E = true := by
      cases hi : fs.isdir E with
      | false => rw [hi] at hE; simp at hE
      | true => rfl
    have hEraw : ∃ w, alookup fs.nodes E = some (Node.dir w) := by
      rw [FS.isdir, lookup_physical hphysE'] at hEdir
      cases h : alookup fs.nodes E with
      | none => rw [h] at hEdir; simp at hEdir
      | some m =>
        cases m with
        | file c => rw [h] at hEdir; simp at hEdir
        | dir w => exact ⟨w, rfl⟩
        | symlink t => rw [h] at hEdir; simp at hEdir
    obtain ⟨wE, hEraw⟩ := hEraw
    -- the early guards passed
    cases hstore : fs.path_exists (_storedir path) with
    | true => rw [wc_init] at hinit; simp [hE, hstore] at hinit
    | false =>
    -- unify the two step branches under common facts about fs₁
    have main : ∀ fs₁ : FS, symEq fs fs₁ →
        (∃ w, alookup fs₁.nodes path = some (Node.dir w)) →
        (∀ q v, alookup fs.nodes q = some v → alookup fs₁.nodes q = some v) →
        (∀ q : Path, path.length < q.length →
          alookup fs₁.nodes q = alookup fs.nodes q) →
        ((match fs₁.mklink E (_storedir path) with
          | Except.error e => (⟨some (PyErr.osError e), fs₁⟩ : InitResult)
          | Except.ok fs₂ =>
            match fs₂.mkdir (_storefile path _PKG_DATA) with
            | Except.error e => ⟨some (PyErr.osError e), fs₂⟩
            | Except.ok fs₃ => ⟨none, fs₃⟩) = ⟨none, fs'⟩) →
        alookup fs'.nodes (_storedir path) = some (Node.symlink E) ∧
        fs'.npath (_storefile path _PKG_DATA) = some (E ++ [_PKG_DATA]) ∧
        alookup fs'.nodes (E ++ [_PKG_DATA]) = some (Node.dir true) := by
      intro fs₁ hsym hdirw hpres hup htail
      obtain ⟨w, hpdir⟩ := hdirw
      have hphys₁ : ∀ q, q ≠ [] → q <+: path →
          symTarget (alookup fs₁.nodes q) = none := by
        intro q hq hp
        rw [← hsym q]
        exact hphys q hq hp
      have hres₁ : fs₁.resolveFrom _FUEL [] path = some path := npath_physical hphys₁
      have hsplit : fs₁.splitResolve (_storedir path) = some (path, _STORE) := by
        rw [FS.splitResolve]
        have hgl : (_storedir path).getLast? = some _STORE := by simp [_storedir]
        have hdl : (_storedir path).dropLast = path := by simp [_storedir]
        rw [hgl, hdl, hres₁]
        rfl
      cases hosc : (alookup fs₁.nodes (path ++ [_STORE])).isSome with
      | true =>
        have hmk : fs₁.mklink E (_storedir path) = Except.error 17 := by
          simp only [FS.mklink, hsplit, hpdir]
          rw [if_pos hosc]
        rw [hmk] at htail
        simp at htail
      | false =>
        have hosc_none : alookup fs₁.nodes (path ++ [_STORE]) = none := by
          cases h : alookup fs₁.nodes (path ++ [_STORE]) with
          | none => rfl
          | some m => rw [h] at hosc; simp at hosc
        have hmk : fs₁.mklink E (_storedir path) =
            Except.ok (fs₁.setRaw (path ++ [_STORE]) (Node.symlink E)) := by
          simp only [FS.mklink, hsplit, hpdir]
          rw [if_neg (by rw [hosc]; simp)]
        rw [hmk] at htail
        dsimp only at htail
        set fs₂ := fs₁.setRaw (path ++ [_STORE]) (Node.symlink E) with hfs₂
        have hlen_sd : (path ++ [_STORE]).length = path.length + 1 := by simp
        -- raw facts in fs₂
        have hstep₂ : alookup fs₂.nodes (path ++ [_STORE])
            = some (Node.symlink E) := by
          rw [hfs₂, alookup_setRaw, if_pos rfl]
        have h₂other : ∀ q : Path, q ≠ path ++ [_STORE] →
            alookup fs₂.nodes q = alookup fs₁.nodes q := by
          intro q hq
          rw [hfs₂, alookup_setRaw, if_neg hq]
        have hphys₂ : ∀ q, q ≠ [] → q <+: path →
            symTarget (alookup fs₂.nodes q) = none := by
          intro q hq hp
          rw [h₂other q (by
            intro hcontra
            have h1 := hp.length_le
            have h2 := congrArg List.length hcontra
            rw [hlen_sd] at h2
            omega)]
          exact hphys₁ q hq hp
        have hphysE₂ : ∀ q, q ≠ [] → q <+: E →
            symTarget (alookup fs₂.nodes q) = none := by
          intro q hq hp
          rw [h₂other q (by
            intro hcontra
            apply hnpre
            rw [show _storedir path = path ++ [_STORE] from rfl, ← hcontra]
            exact hp)]
          rw [← hsym q]
          exact hphysE' q hq hp
        have hE₂ : alookup fs₂.nodes E = some (Node.dir wE) := by
          rw [h₂other E (by
            intro hcontra
            apply hnpre
            rw [show _storedir path = path ++ [_STORE] from rfl, ← hcontra])]
          exact hpres E _ hEraw
        -- resolution of the store through the link
        have hnp₂ : fs₂.npath (path ++ [_STORE]) = some E :=
          npath_through_link hphys₂ (by rw [hstep₂]; rfl) hphysE₂
        have hsplit₂ : fs₂.splitResolve (_storefile path _PKG_DATA)
            = some (E, _PKG_DATA) := by
          rw [FS.splitResolve]
          have hgl : (_storefile path _PKG_DATA).getLast? = some _PKG_DATA := by
            simp [_storefile, _storedir]
          have hdl : (_storefile path _PKG_DATA).dropLast = path ++ [_STORE] := by
            simp [_storefile, _storedir]
          rw [hgl, hdl, show fs₂.resolveFrom _FUEL [] (path ++ [_STORE]) = some E
            from hnp₂]
          rfl
        cases hdata : (alookup fs₂.nodes (E ++ [_PKG_DATA])).isSome with
        | true =>
          have hmk₂ : fs₂.mkdir (_storefile path _PKG_DATA) = Except.error 17 := by
            simp only [FS.mkdir, hsplit₂, hE₂]
            rw [if_pos hdata]
          rw [hmk₂] at htail
          simp at htail
        | false =>
          have hdata_none : alookup fs₂.nodes (E ++ [_PKG_DATA]) = none := by
            cases h : alookup fs₂.nodes (E ++ [_PKG_DATA]) with
            | none => rfl
            | some m => rw [h] at hdata; simp at hdata
          have hmk₂ : fs₂.mkdir (_storefile path _PKG_DATA) =
              Except.ok (fs₂.setRaw (E ++ [_PKG_DATA]) (Node.dir true)) := by
            simp only [FS.mkdir, hsplit₂, hE₂]
            rw [if_neg (by rw [hdata]; simp)]
          rw [hmk₂] at htail
          dsimp only at htail
          have hfseq : fs₂.setRaw (E ++ [_PKG_DATA]) (Node.dir true) = fs' := by
            simp only [InitResult.mk.injEq] at htail
            exact htail.2
          have hkey_ne : path ++ [_STORE] ≠ E ++ [_PKG_DATA] := by
            intro hcontra
            have := congrArg List.getLast? hcontra
            simp [_STORE, _PKG_DATA] at this
          -- conclusions
          have hc1 : alookup fs'.nodes (path ++ [_STORE])
              = some (Node.symlink E) := by
            rw [← hfseq, alookup_setRaw, if_neg hkey_ne]
            exact hstep₂
          have hc3 : alookup fs'.nodes (E ++ [_PKG_DATA])
              = some (Node.dir true) := by
            rw [← hfseq, alookup_setRaw, if_pos rfl]
          have h₃other : ∀ q : Path, q ≠ E ++ [_PKG_DATA] →
              alookup fs'.nodes q = alookup fs₂.nodes q := by
            intro q hq
            rw [← hfseq, alookup_setRaw, if_neg hq]
          have hphys₃ : ∀ q, q ≠ [] → q <+: path →
              symTarget (alookup fs'.nodes q) = none := by
            intro q hq hp
            by_cases hqe : q = E ++ [_PKG_DATA]
            · rw [hqe, hc3]; rfl
            · rw [h₃other q hqe]
              exact hphys₂ q hq hp
          have hphysE₃ : ∀ q, q ≠ [] → q <+: E →
              symTarget (alookup fs'.nodes q) = none := by
            intro q hq hp
            by_cases hqe : q = E ++ [_PKG_DATA]
            · rw [hqe, hc3]; rfl
            · rw [h₃other q hqe]
              exact hphysE₂ q hq hp
          have hnp₃ : fs'.npath (path ++ [_STORE]) = some E :=
            npath_through_link hphys₃ (by rw [hc1]; rfl) hphysE₃
          have hc2 : fs'.npath (_storefile path _PKG_DATA)
              = some (E ++ [_PKG_DATA]) := by
            refine npath_snoc hnp₃ ?_
            rw [hc3]
            rfl
          exact ⟨hc1, hc2, hc3⟩
    -- dispatch the two step branches
    cases hex : fs.path_exists path with
    | true =>
      cases hdir : fs.isdir path with
      | false => rw [wc_init] at hinit; simp [hE, hstore, hex, hdir] at hinit
      | true =>
        have hdirw : ∃ w, alookup fs.nodes path = some (Node.dir w) := by
          have hlk : fs.lookup path = alookup fs.nodes path := lookup_physical hphys
          rw [FS.isdir, hlk] at hdir
          cases h : alookup fs.nodes path with
          | none => rw [h] at hdir; simp at hdir
          | some m =>
            cases m with
            | file c => rw [h] at hdir; simp at hdir
            | dir w => exact ⟨w, rfl⟩
            | symlink t => rw [h] at hdir; simp at hdir
        cases haccess : fs.accessW path with
        | false => rw [wc_init] at hinit; simp [hE, hstore, hex, hdir, haccess] at hinit
        | true =>
          rw [wc_init] at hinit
          simp only [hE, hstore, hex, hdir, haccess, Bool.not_true,
            Bool.false_eq_true, if_false, Bool.true_and, Bool.and_self,
            Bool.not_false, if_true, Bool.true_eq_false] at hinit
          exact main fs (symEq_refl fs) hdirw (fun _ _ h => h) (fun _ _ => rfl) hinit
    | false =>
      cases horacle : alookup fs.mkdirErrors path with
      | some e =>
        by_cases he : e = EACCES
        · rw [wc_init] at hinit
          simp [hE, hstore, hex, FS.makedirs, horacle, he] at hinit
        · rw [wc_init] at hinit
          simp [hE, hstore, hex, FS.makedirs, horacle, he] at hinit
      | none =>
        have hraw_path : alookup fs.nodes path = none := by
          have h1 : fs.lookup path = alookup fs.nodes path := lookup_physical hphys
          cases h : alookup fs.nodes path with
          | none => rfl
          | some m =>
            rw [FS.path_exists, h1, h] at hex
            simp at hex
        by_cases hne : path = []
        · subst hne
          have hacc : fs.accessW ([] : Path) = false := by
            rw [FS.accessW, show fs.lookup ([] : Path) = alookup fs.nodes []
              from lookup_physical (fun q hq hp => absurd (List.prefix_nil.mp hp) hq),
              hraw_path]
          rw [wc_init] at hinit
          simp [hE, hstore, hex, FS.makedirs, horacle, FS.mkdirAll, mkdirUpto,
            hacc] at hinit
        · have hlen : 0 < path.length := List.length_pos.mpr hne
          have hsym₁ : symEq fs (fs.mkdirAll path) := mkdirUpto_symEq path.length
          have hpath_dir : alookup (fs.mkdirAll path).nodes path
              = some (Node.dir true) := by
            have := mkdirUpto_creates (p := path) path.length (Nat.le_refl _)
              (path.length - 1) (by omega)
              (by rwa [show path.length - 1 + 1 = path.length by omega,
                List.take_length])
            rwa [show path.length - 1 + 1 = path.length by omega,
              List.take_length] at this
          have hup : ∀ q : Path, path.length < q.length →
              alookup (fs.mkdirAll path).nodes q = alookup fs.nodes q := by
            intro q hq
            refine mkdirUpto_untouched fs path path.length q ?_
            intro k hk hqe
            have := congrArg List.length hqe
            rw [List.length_take] at this
            omega
          have hphys₁ : ∀ q, q ≠ [] → q <+: path →
              symTarget (alookup (fs.mkdirAll path).nodes q) = none := by
            intro q hq hp
            rw [← hsym₁ q]
            exact hphys q hq hp
          have haccess : (fs.mkdirAll path).accessW path = true := by
            rw [FS.accessW, lookup_physical hphys₁, hpath_dir]
          rw [wc_init] at hinit
          simp only [hE, hstore, hex, FS.makedirs, horacle, haccess, Bool.not_true,
            Bool.false_eq_true, if_false, Bool.false_and, Bool.not_false, if_true,
            Bool.true_eq_false] at hinit
          exact main (fs.mkdirAll path) hsym₁ ⟨true, hpath_dir⟩
            (fun q v h => mkdirUpto_preserves_some path.length q v h) hup hinit

/-- Witness for C6: a missing external directory is rejected; a valid one
becomes the link target of the store, with the data directory physically
created under it. -/
theorem c6_external_storedir_witness :
    ((⟨[(["ext"], Node.dir true), (["top"], Node.dir true)], []⟩ : FS).isdir ["nosuch"]
        && (⟨[(["ext"], Node.dir true), (["top"], Node.dir true)], []⟩ : FS).accessW ["nosuch"]) = false ∧
    wc_init (⟨[(["ext"], Node.dir true), (["top"], Node.dir true)], []⟩ : FS)
        ["top", "wc"] (some ["nosuch"])
      = ⟨some (PyErr.valueError ("ext_storedir \"" ++ showPath ["nosuch"] ++
          "\" is no dir or not writable")),
         ⟨[(["ext"], Node.dir true), (["top"], Node.dir true)], []⟩⟩ ∧
    (alookup (wc_init (⟨[(["ext"], Node.dir true), (["top"], Node.dir true)], []⟩ : FS)
        ["top", "wc"] (some ["ext"])).fs.nodes (_storedir ["top", "wc"])
      = some (Node.symlink ["ext"]) ∧
     (wc_init (⟨[(["ext"], Node.dir true), (["top"], Node.dir true)], []⟩ : FS)
        ["top", "wc"] (some ["ext"])).fs.npath (_storefile ["top", "wc"] _PKG_DATA)
      = some (["ext"] ++ [_PKG_DATA]) ∧
     alookup (wc_init (⟨[(["ext"], Node.dir true), (["top"], Node.dir true)], []⟩ : FS)
        ["top", "wc"] (some ["ext"])).fs.nodes (["ext"] ++ [_PKG_DATA])
      = some (Node.dir true)) :=
  ⟨by decide,
   (c6_external_storedir ⟨[(["ext"], Node.dir true), (["top"], Node.dir true)], []⟩
      ["top", "wc"] ["nosuch"]
      ⟨[(["ext"], Node.dir true), (["top"], Node.dir true)], []⟩).1 (by decide),
   (c6_external_storedir ⟨[(["ext"], Node.dir true), (["top"], Node.dir true)], []⟩
      ["top", "wc"] ["ext"]
      (wc_init (⟨[(["ext"], Node.dir true), (["top"], Node.dir true)], []⟩ : FS)
        ["top", "wc"] (some ["ext"])).fs).2
      (by decide) (by decide) (by decide) (by decide)⟩

theorem pyStripL_newline : ∀ l : List Char,
    (((l ++ ['\n']).dropWhile isPySpace).reverse.dropWhile isPySpace).reverse =
    ((l.dropWhile isPySpace).reverse.dropWhile isPySpace).reverse := by
  have hnl : isPySpace '\n' = true := rfl
  intro l
  induction l with
  | nil => rfl
  | cons c l ih =>
    simp only [List.cons_append, List.dropWhile]
    cases hc : isPySpace c with
    | true => simpa using ih
    | false =>
      simp only [List.reverse_cons, List.reverse_append, List.append_eq,
        List.reverse_nil, List.nil_append, List.singleton_append,
        List.cons_append]
      rw [List.dropWhile, hnl]

/-- Appending the trailing newline that `_write_storefile` adds is
invisible to the stripping reader. -/
theorem pyStrip_newline (s : String) : pyStrip (s ++ "\n") = pyStrip s := by
  have hdata : (s ++ "\n").data = s.data ++ ['\n'] := String.data_append s "\n"
  rw [pyStrip, pyStrip, hdata, pyStripL_newline]

/-- Claim C3 (counterexample to the claim as stated): writing the content
`" x "` and reading it back returns `"x"`, not `" x "`, because the reader
strips surrounding whitespace. -/
theorem c3_roundtrip_counterexample :
    (_write_storefile sampleStore ["r"] "_apiurl" " x " "tmp1" none).err = none ∧
    _read_storefile
      (_write_storefile sampleStore ["r"] "_apiurl" " x " "tmp1" none).fs
      ["r"] "_apiurl" = Except.ok "x" ∧
    ("x" : String) ≠ " x " := by
  decide

/-- Claim C3 (amended): on a root with a store, writing `data` to an entry
succeeds, stores `data` plus a trailing newline exactly when `data` is
nonempty (a zero-byte file for `""`), and reading the entry back returns
`data.strip()` — hence `data` itself whenever `data` carries no
surrounding whitespace. -/
theorem c3_write_read_roundtrip (fs : FS) (path : Path) (name data tmp : String)
    (hhas : _has_storedir fs path = true)
    (htmp_ne : tmp ≠ name) :
    ∀ S, fs.npath (_storedir path) = some S →
      plainAt fs (S ++ [name]) = true →
      alookup fs.nodes (S ++ [tmp]) = none →
      (_write_storefile fs path name data tmp none).err = none ∧
      alookup (_write_storefile fs path name data tmp none).fs.nodes (S ++ [name])
        = some (Node.file (if data = "" then "" else data ++ "\n")) ∧
      _read_storefile (_write_storefile fs path name data tmp none).fs path name
        = Except.ok (pyStrip data) := by
  intro S hS hplain htmpfree
  have hsdir : fs.isdir (_storedir path) = true := by
    cases h : fs.isdir (_storedir path) with
    | false => rw [_has_storedir, h] at hhas; simp at hhas
    | true => rfl
  have hpdir : fs.isdir path = true := by
    cases h : fs.isdir path with
    | false => rw [_has_storedir, h] at hhas; simp at hhas
    | true => rfl
  have hSdir : ∃ w, alookup fs.nodes S = some (Node.dir w) := by
    rw [FS.isdir, FS.lookup, hS] at hsdir
    simp only [Option.some_bind] at hsdir
    cases h : alookup fs.nodes S with
    | none => rw [h] at hsdir; simp at hsdir
    | some m =>
      cases m with
      | file c => rw [h] at hsdir; simp at hsdir
      | dir w => exact ⟨w, rfl⟩
      | symlink t => rw [h] at hsdir; simp at hsdir
  obtain ⟨wS, hSdir⟩ := hSdir
  have hplain_nd : ∀ w', alookup fs.nodes (S ++ [name]) ≠ some (Node.dir w') := by
    intro w' hcontra
    rw [plainAt, hcontra] at hplain
    simp at hplain
  have hplain_ns : ∀ t, alookup fs.nodes (S ++ [name]) ≠ some (Node.symlink t) := by
    intro t hcontra
    rw [plainAt, hcontra] at hplain
    simp at hplain
  have hkey_ne : S ++ [tmp] ≠ S ++ [name] := by
    intro hcontra
    exact htmp_ne (by simpa using (List.append_inj' hcontra rfl).2)
  -- the temporary file is created in the physical store directory
  have hmt : fs.mktempIn (_storedir path) tmp =
      Except.ok (fs.setRaw (S ++ [tmp]) (Node.file ""), S ++ [tmp]) := by
    rw [FS.mktempIn, show fs.resolveFrom _FUEL [] (_storedir path) = some S from hS]
    dsimp only
    rw [hSdir]
    dsimp only
    rw [if_neg (by rw [htmpfree]; simp)]
  -- the doubly written temporary node
  set written : String := if data = "" then "" else data ++ "\n" with hwr
  set fs₂ := (fs.setRaw (S ++ [tmp]) (Node.file "")).setRaw (S ++ [tmp])
    (Node.file written) with hfs₂
  have hraw₂ : ∀ q : Path, q ≠ S ++ [tmp] →
      alookup fs₂.nodes q = alookup fs.nodes q := by
    intro q hq
    rw [hfs₂, alookup_setRaw, if_neg hq, alookup_setRaw, if_neg hq]
  have hraw₂tmp : alookup fs₂.nodes (S ++ [tmp]) = some (Node.file written) := by
    rw [hfs₂, alookup_setRaw, if_pos rfl]
  have hsym₂ : symEq fs fs₂ := by
    intro q
    by_cases hq : q = S ++ [tmp]
    · rw [hq, hraw₂tmp, htmpfree]
      rfl
    · rw [hraw₂ q hq]
  -- S stays physical in fs₂
  have hphysS := npath_result_physical hS
  have hphysS₂ : ∀ q, q ≠ [] → q <+: S → symTarget (alookup fs₂.nodes q) = none := by
    intro q hq hp
    rw [← hsym₂ q]
    exact hphysS q hq hp
  have hnpS₂ : fs₂.npath S = some S := npath_physical hphysS₂
  -- the rename over the target
  have hsplit_src : fs₂.splitResolve (S ++ [tmp]) = some (S, tmp) := by
    rw [FS.splitResolve]
    have hgl : (S ++ [tmp]).getLast? = some tmp := by simp
    have hdl : (S ++ [tmp]).dropLast = S := by simp
    rw [hgl, hdl, show fs₂.resolveFrom _FUEL [] S = some S from hnpS₂]
    rfl
  have hnpsd₂ : fs₂.npath (_storedir path) = some S := by
    rw [FS.npath, resolveFrom_congr (fun q => (hsym₂ q).symm) _FUEL [] (_storedir path)]
    exact hS
  have hsplit_dst : fs₂.splitResolve (_storefile path name) = some (S, name) := by
    rw [FS.splitResolve]
    have hgl : (_storefile path name).getLast? = some name := by
      simp [_storefile, _storedir]
    have hdl : (_storefile path name).dropLast = _storedir path := by
      simp [_storefile, _storedir]
    rw [hgl, hdl, show fs₂.resolveFrom _FUEL [] (_storedir path) = some S from hnpsd₂]
    rfl
  have hdst₂ : alookup fs₂.nodes (S ++ [name]) = alookup fs.nodes (S ++ [name]) :=
    hraw₂ _ (fun h => hkey_ne h.symm)
  have hren : fs₂.rename (S ++ [tmp]) (_storefile path name) =
      Except.ok ((fs₂.delRaw (S ++ [tmp])).setRaw (S ++ [name]) (Node.file written)) := by
    rw [FS.rename, hsplit_src, hsplit_dst]
    dsimp only
    rw [hraw₂tmp]
    cases hd : alookup fs₂.nodes (S ++ [name]) with
    | none => rfl
    | some m =>
      cases m with
      | file c => rfl
      | symlink t => rfl
      | dir w' =>
        rw [hdst₂] at hd
        exact absurd hd (hplain_nd w')
  -- the final filesystem
  set fs₃ := (fs₂.delRaw (S ++ [tmp])).setRaw (S ++ [name]) (Node.file written)
    with hfs₃
  have hwrite : _write_storefile fs path name data tmp none = ⟨none, fs₃⟩ := by
    rw [show _write_storefile fs path name data tmp none =
        (if _has_storedir fs path then
          match fs.mktempIn (_storedir path) tmp with
          | Except.error e => (⟨some (PyErr.osError e), fs⟩ : WriteResult)
          | Except.ok (fs₁, tmppath) =>
            match (fs₁.setRaw tmppath
                (Node.file (if data = "" then "" else data ++ "\n"))).rename
                tmppath (_storefile path name) with
            | Except.error e => ⟨some (PyErr.osError e),
                fs₁.setRaw tmppath (Node.file (if data = "" then "" else data ++ "\n"))⟩
            | Except.ok fs₃ => ⟨none, fs₃⟩
         else ⟨some (PyErr.valueError ("path \"" ++ showPath path ++
           "\" has no storedir")), fs⟩)
      from rfl]
    rw [if_pos hhas, hmt]
    dsimp only
    rw [← hwr, ← hfs₂, hren]
  have hraw₃name : alookup fs₃.nodes (S ++ [name]) = some (Node.file written) := by
    rw [hfs₃, alookup_setRaw, if_pos rfl]
  have hraw₃ : ∀ q : Path, q ≠ S ++ [tmp] → q ≠ S ++ [name] →
      alookup fs₃.nodes q = alookup fs.nodes q := by
    intro q h1 h2
    rw [hfs₃, alookup_setRaw, if_neg h2, alookup_delRaw, if_neg h1, hraw₂ q h1]
  have hraw₃tmp : alookup fs₃.nodes (S ++ [tmp]) = none := by
    rw [hfs₃, alookup_setRaw, if_neg hkey_ne, alookup_delRaw, if_pos rfl]
  have hsym₃ : symEq fs fs₃ := by
    intro q
    by_cases h1 : q = S ++ [tmp]
    · rw [h1, hraw₃tmp, htmpfree]
    · by_cases h2 : q = S ++ [name]
      · rw [h2, hraw₃name]
        rw [plainAt] at hplain
        cases hv : alookup fs.nodes (S ++ [name]) with
        | none => rfl
        | some m =>
          cases m with
          | file c => rfl
          | dir w' => exact absurd hv (hplain_nd w')
          | symlink t => exact absurd hv (hplain_ns t)
      · rw [hraw₃ q h1 h2]
  have hcongr₃ : ∀ fuel acc rest, fs₃.resolveFrom fuel acc rest
      = fs.resolveFrom fuel acc rest :=
    resolveFrom_congr (fun q => (hsym₃ q).symm)
  -- the read back
  have hhas₃ : _has_storedir fs₃ path = true := by
    have hpdir₃ : fs₃.isdir path = true := by
      rw [FS.isdir, FS.lookup, FS.npath, hcongr₃]
      rw [FS.isdir, FS.lookup, FS.npath] at hpdir
      cases hR : fs.resolveFrom _FUEL [] path with
      | none => rw [hR] at hpdir; simp at hpdir
      | some R =>
        rw [hR] at hpdir
        simp only [Option.some_bind] at hpdir ⊢
        cases hv : alookup fs.nodes R with
        | none => rw [hv] at hpdir; simp at hpdir
        | some m =>
          cases m with
          | file c => rw [hv] at hpdir; simp at hpdir
          | dir w' =>
            rw [hraw₃ R ?_ ?_, hv]
            · intro hcontra
              rw [hcontra, htmpfree] at hv
              simp at hv
            · intro hcontra
              rw [hcontra] at hv
              exact hplain_nd w' hv
          | symlink t => rw [hv] at hpdir; simp at hpdir
    have hsdir₃ : fs₃.isdir (_storedir path) = true := by
      rw [FS.isdir, FS.lookup, FS.npath, hcongr₃]
      rw [show fs.resolveFrom _FUEL [] (_storedir path) = some S from hS]
      simp only [Option.some_bind]
      rw [hraw₃ S ?_ ?_, hSdir]
      · intro hcontra
        have := congrArg List.length hcontra
        simp at this
      · intro hcontra
        have := congrArg List.length hcontra
        simp at this
    rw [_has_storedir, hpdir₃, hsdir₃]
    rfl
  have hnp₃entry : fs₃.npath (_storefile path name) = some (S ++ [name]) := by
    have hnp₃sd : fs₃.npath (_storedir path) = some S := by
      rw [FS.npath, hcongr₃]
      exact hS
    refine npath_snoc hnp₃sd ?_
    rw [hraw₃name]
    rfl
  have hisfile₃ : fs₃.isfile (_storefile path name) = true := by
    rw [FS.isfile, FS.lookup, hnp₃entry]
    simp only [Option.some_bind]
    rw [hraw₃name]
  have hmiss : missing_storepaths fs₃ path [name] false false = [] := by
    rw [show missing_storepaths fs₃ path [name] false false =
        (if fs₃.isfile (_storefile path name) = true then ([] : List String)
         else [name]) from by rw [missing_storepaths, if_pos hhas₃]; rfl]
    rw [hisfile₃]
    simp
  have hread : _read_storefile fs₃ path name = Except.ok (pyStrip written) := by
    rw [_read_storefile, if_neg (by rw [hmiss]; simp)]
    rw [FS.lookup, hnp₃entry]
    simp only [Option.some_bind]
    rw [hraw₃name]
  have hstrip : pyStrip written = pyStrip data := by
    rw [hwr]
    by_cases hd : data = ""
    · rw [if_pos hd, hd]
    · rw [if_neg hd, pyStrip_newline]
  refine ⟨?_, ?_, ?_⟩
  · rw [hwrite]
  · rw [hwrite]
    exact hraw₃name
  · rw [hwrite]
    rw [hread, hstrip]

/-- Witness for the amended C3 on a concrete store. -/
theorem c3_write_read_roundtrip_witness :
    _has_storedir sampleStore ["r"] = true ∧
    ("tmp1" : String) ≠ "_apiurl" ∧
    sampleStore.npath (_storedir ["r"]) = some ["r", ".osc"] ∧
    plainAt sampleStore (["r", ".osc"] ++ ["_apiurl"]) = true ∧
    alookup sampleStore.nodes (["r", ".osc"] ++ ["tmp1"]) = none ∧
    ((_write_storefile sampleStore ["r"] "_apiurl" "value" "tmp1" none).err = none ∧
     alookup (_write_storefile sampleStore ["r"] "_apiurl" "value" "tmp1"
        none).fs.nodes (["r", ".osc"] ++ ["_apiurl"])
      = some (Node.file (if ("value" : String) = "" then "" else "value" ++ "\n")) ∧
     _read_storefile (_write_storefile sampleStore ["r"] "_apiurl" "value" "tmp1"
        none).fs ["r"] "_apiurl" = Except.ok (pyStrip "value")) :=
  ⟨by decide, by decide, by decide, by decide, by decide,
   c3_write_read_roundtrip sampleStore ["r"] "_apiurl" "value" "tmp1"
     (by decide) (by decide) ["r", ".osc"] (by decide) (by decide) (by decide)⟩

/-- Claim C4: locking an already-holding handle fails immediately with the
double-lock `RuntimeError` (no state change, hence no blocking), releasing
a non-holding handle fails immediately with the unacquired-release
`RuntimeError`, and on a working copy the sequence lock, unlock, lock on
the same handle succeeds. -/
theorem c4_lock_reuse (fs : FS) (path : Path) (l : WCLock) :
    (l.has_lock = true →
      l.lock fs = ⟨some (PyErr.runtimeError "Double lock occured"), l, fs⟩) ∧
    (l.has_lock = false →
      l.unlock fs = ⟨some (PyErr.runtimeError
        "Attempting to release an unaquired lock."), l, fs⟩) ∧
    (fs.physicalAlong (_storefile path _LOCK) = true →
     (∃ w, alookup fs.nodes (_storedir path) = some (Node.dir w)) →
     plainAt fs (_storefile path _LOCK) = true →
     ((WCLock.mk path none).lock fs).err = none ∧
     (((WCLock.mk path none).lock fs).lk.unlock
        ((WCLock.mk path none).lock fs).fs).err = none ∧
     ((((WCLock.mk path none).lock fs).lk.unlock
        ((WCLock.mk path none).lock fs).fs).lk.lock
       ((((WCLock.mk path none).lock fs).lk.unlock
        ((WCLock.mk path none).lock fs).fs)).fs).err = none) := by
  refine ⟨?_, ?_, ?_⟩
  · intro h
    rw [WCLock.lock, if_pos h]
  · intro h
    rw [WCLock.unlock, if_pos (by rw [h]; rfl)]
  · intro hphysB hsd hplain
    obtain ⟨w, hsd⟩ := hsd
    have hphys := physicalAlong_spec hphysB
    have hnp : fs.npath (_storefile path _LOCK) = some (_storefile path _LOCK) :=
      npath_physical hphys
    have hplain_nd : ∀ w', alookup fs.nodes (_storefile path _LOCK)
        ≠ some (Node.dir w') := by
      intro w' hcontra
      rw [plainAt, hcontra] at hplain
      simp at hplain
    have hgl : (_storefile path _LOCK).getLast? = some _LOCK := by
      simp [_storefile, _storedir]
    have hdl : (_storefile path _LOCK).dropLast = _storedir path := by
      simp [_storefile, _storedir]
    have hopen : fs.openW (_storefile path _LOCK) =
        Except.ok (fs.setRaw (_storefile path _LOCK) (Node.file "")) := by
      rw [FS.openW, show fs.resolveFrom _FUEL [] (_storefile path _LOCK)
        = some (_storefile path _LOCK) from hnp]
      dsimp only
      rw [hgl]
      dsimp only
      rw [hdl, hsd]
      dsimp only
      cases hv : alookup fs.nodes (_storefile path _LOCK) with
      | none => rfl
      | some m =>
        cases m with
        | file c => rfl
        | symlink t => rfl
        | dir w' => exact absurd hv (hplain_nd w')
    set fs₁ := fs.setRaw (_storefile path _LOCK) (Node.file "") with hfs₁
    have hlock1 : (WCLock.mk path none).lock fs = ⟨none, ⟨path, some ()⟩, fs₁⟩ := by
      rw [WCLock.lock, if_neg (by simp [WCLock.has_lock])]
      dsimp only
      rw [hopen]
    have hraw₁lock : alookup fs₁.nodes (_storedir path ++ [_LOCK])
        = some (Node.file "") := by
      rw [hfs₁, alookup_setRaw,
        if_pos (show _storedir path ++ [_LOCK] = _storefile path _LOCK from rfl)]
    have hraw₁ : ∀ q : Path, q ≠ _storedir path ++ [_LOCK] →
        alookup fs₁.nodes q = alookup fs.nodes q := by
      intro q hq
      rw [hfs₁, alookup_setRaw,
        if_neg (show ¬(q = _storefile path _LOCK) from fun hc => hq hc)]
    have hphys₁ : ∀ q, q ≠ [] → q <+: _storefile path _LOCK →
        symTarget (alookup fs₁.nodes q) = none := by
      intro q hq hp
      by_cases hql : q = _storedir path ++ [_LOCK]
      · rw [hql, hraw₁lock]
        rfl
      · rw [hraw₁ q hql]
        exact hphys q hq hp
    have hsd_pre : _storedir path <+: _storefile path _LOCK := ⟨[_LOCK], rfl⟩
    have hnp₁sd : fs₁.npath (_storedir path) = some (_storedir path) :=
      npath_physical (fun q hq hp => hphys₁ q hq (hp.trans hsd_pre))
    have hsd₁ : alookup fs₁.nodes (_storedir path) = some (Node.dir w) := by
      rw [hraw₁ _ (by
        intro hcontra
        have := congrArg List.length hcontra
        simp [_storedir] at this)]
      exact hsd
    have hunl : fs₁.unlink (_storefile path _LOCK) =
        Except.ok (fs₁.delRaw (_storedir path ++ [_LOCK])) := by
      rw [FS.unlink, FS.splitResolve, hgl, hdl,
        show fs₁.resolveFrom _FUEL [] (_storedir path)
          = some (_storedir path) from hnp₁sd]
      dsimp only
      rw [show Option.map (fun P => (P, _LOCK)) (some (_storedir path))
          = some (_storedir path, _LOCK) from rfl]
      dsimp only
      rw [hraw₁lock]
    have hunlock : (⟨path, some ()⟩ : WCLock).unlock fs₁ =
        ⟨none, ⟨path, none⟩, fs₁.delRaw (_storedir path ++ [_LOCK])⟩ := by
      rw [WCLock.unlock, if_neg (by simp [WCLock.has_lock])]
      dsimp only
      rw [hunl]
    set fs₂ := fs₁.delRaw (_storedir path ++ [_LOCK]) with hfs₂
    have hraw₂lock : alookup fs₂.nodes (_storedir path ++ [_LOCK]) = none := by
      rw [hfs₂, alookup_delRaw, if_pos rfl]
    have hraw₂ : ∀ q : Path, q ≠ _storedir path ++ [_LOCK] →
        alookup fs₂.nodes q = alookup fs₁.nodes q := by
      intro q hq
      rw [hfs₂, alookup_delRaw, if_neg hq]
    have hphys₂ : ∀ q, q ≠ [] → q <+: _storefile path _LOCK →
        symTarget (alookup fs₂.nodes q) = none := by
      intro q hq hp
      by_cases hql : q = _storedir path ++ [_LOCK]
      · rw [hql, hraw₂lock]
        rfl
      · rw [hraw₂ q hql]
        exact hphys₁ q hq hp
    have hnp₂ : fs₂.npath (_storefile path _LOCK)
        = some (_storefile path _LOCK) := npath_physical hphys₂
    have hsd₂ : alookup fs₂.nodes (_storedir path) = some (Node.dir w) := by
      rw [hraw₂ _ (by
        intro hcontra
        have := congrArg List.length hcontra
        simp [_storedir] at this)]
      exact hsd₁
    have hopen₂ : fs₂.openW (_storefile path _LOCK) =
        Except.ok (fs₂.setRaw (_storefile path _LOCK) (Node.file "")) := by
      rw [FS.openW, show fs₂.resolveFrom _FUEL [] (_storefile path _LOCK)
        = some (_storefile path _LOCK) from hnp₂]
      dsimp only
      rw [hgl]
      dsimp only
      rw [hdl, hsd₂]
      dsimp only
      rw [show alookup fs₂.nodes (_storefile path _LOCK) = none from hraw₂lock]
    have hlock2 : (⟨path, none⟩ : WCLock).lock fs₂ =
        ⟨none, ⟨path, some ()⟩, fs₂.setRaw (_storefile path _LOCK) (Node.file "")⟩ := by
      rw [WCLock.lock, if_neg (by simp [WCLock.has_lock])]
      dsimp only
      rw [hopen₂]
    refine ⟨?_, ?_, ?_⟩
    · rw [hlock1]
    · rw [hlock1]
      dsimp only
      rw [hunlock]
    · rw [hlock1]
      dsimp only
      rw [hunlock]
      dsimp only
      rw [hlock2]

/-- Witness for C4 on a concrete store: double lock errors, unacquired
release errors, and lock-unlock-lock succeeds. -/
theorem c4_lock_reuse_witness :
    ((⟨["r"], some ()⟩ : WCLock).lock sampleStore
      = ⟨some (PyErr.runtimeError "Double lock occured"), ⟨["r"], some ()⟩,
         sampleStore⟩) ∧
    ((⟨["r"], none⟩ : WCLock).unlock sampleStore
      = ⟨some (PyErr.runtimeError "Attempting to release an unaquired lock."),
         ⟨["r"], none⟩, sampleStore⟩) ∧
    (((WCLock.mk ["r"] none).lock sampleStore).err = none ∧
     (((WCLock.mk ["r"] none).lock sampleStore).lk.unlock
        ((WCLock.mk ["r"] none).lock sampleStore).fs).err = none ∧
     ((((WCLock.mk ["r"] none).lock sampleStore).lk.unlock
        ((WCLock.mk ["r"] none).lock sampleStore).fs).lk.lock
       ((((WCLock.mk ["r"] none).lock sampleStore).lk.unlock
        ((WCLock.mk ["r"] none).lock sampleStore).fs)).fs).err = none) :=
  ⟨(c4_lock_reuse sampleStore ["r"] ⟨["r"], some ()⟩).1 (by decide),
   (c4_lock_reuse sampleStore ["r"] ⟨["r"], none⟩).2.1 (by decide),
   (c4_lock_reuse sampleStore ["r"] ⟨["r"], none⟩).2.2 (by decide)
     ⟨true, by decide⟩ (by decide)⟩

end OscWc
